import Mathlib

/-!
Verification of the asynchronous dispatch-and-reorder scheduler of
`demos/object_detection_demo_ssd_async/main.cpp` (the `main` inference loop,
source lines 303-574, plus the final report at lines 599-625).

The embedding is a small-step transition system over the loop's shared state.
The control thread's loop body (lines 355-573) is one `Act.control` step;
each infer-request completion callback (lines 536-561) is an `Act.fire` step
(or `Act.fireErr` when the callback body throws); the Tab-handler's blocking
`Wait` (lines 473-477) suspends the control thread, so the handler is split
into the flag flip (start) and `Act.drainEnd` (resumption once the waited-on
requests are idle).  Timestamps are modelled as a `Nat` tick counter that
advances by one on every step; payload frames and raw output buffers carry no
information relevant to the claims and are omitted from `RequestResult`.

`completedRequestResults` is a `std::map<int, RequestResult>`; the demo uses
only `find`, `erase`, `insert` and `empty`, all order-independent, so the map
is embedded as an association list with `mapFind` / `mapErase` / `mapInsert`
transcribing exactly those member functions (`std::map::insert` does not
overwrite an existing binding).
-/

namespace OdSsdAsync

/-- One infer request, identified by the pool it belongs to and its index.
`pool = true` is a user-specified-mode request (`userSpecifiedInferRequests`,
created at lines 275-278); `pool = false` is the single min-latency request
(`minLatencyInferRequest`, line 280). -/
structure Req where
  pool : Bool
  idx : Nat
deriving Repr, DecidableEq

/-- Source lines 303-308: the completed-result record stored in
`completedRequestResults`.  The `frame` payload and the raw `output` pointer
are opaque to the scheduler; the code uses `output != nullptr` only as the
found/not-found sentinel of the buffer lookup, which the embedding renders
with `Option`. -/
structure RequestResult where
  startTime : Nat
  isSameMode : Bool
deriving Repr, DecidableEq

/-- Source lines 310-315: per-mode metrics. `lastEndTime` starts as a
default-constructed time point, tested at lines 604/617 by
`time_since_epoch().count() != 0`; the embedding uses `Option`. -/
structure ModeInfo where
  framesCount : Nat
  latencySum : Nat
  lastStartTime : Nat
  lastEndTime : Option Nat
deriving Repr, DecidableEq

/-- `ModeInfo()` value-initialized at time `now` (lines 310-315, 488). -/
def ModeInfo.init (now : Nat) : ModeInfo :=
  { framesCount := 0, latencySum := 0, lastStartTime := now, lastEndTime := none }

/-- A unit in flight: the request it occupies plus the values the completion
callback captured at submission time (lines 523-536): `nextFrameId`,
`frameMode` (line 522) and `startTime` (line 499). -/
structure InFlight where
  req : Req
  frameId : Nat
  frameMode : Bool
  startTime : Nat
deriving Repr, DecidableEq

/-- `completedRequestResults.find(k)` (line 367). -/
def mapFind (k : Nat) : List (Nat × RequestResult) → Option RequestResult
  | [] => none
  | (k', v) :: rest => if k' = k then some v else mapFind k rest

/-- `completedRequestResults.erase(it)` for the binding of key `k`
(line 370). -/
def mapErase (k : Nat) : List (Nat × RequestResult) → List (Nat × RequestResult)
  | [] => []
  | (k', v) :: rest => if k' = k then rest else (k', v) :: mapErase k rest

/-- `completedRequestResults.insert({k, v})` (line 546): `std::map::insert`
leaves the map unchanged when the key is already present. -/
def mapInsert (k : Nat) (v : RequestResult) (m : List (Nat × RequestResult)) :
    List (Nat × RequestResult) :=
  if (mapFind k m).isSome then m else m ++ [(k, v)]

/-- The locked lookup-and-erase of lines 364-372: returns the entry for the
cursor key and the buffer with it removed, or `none` and the buffer
untouched. -/
def popIfNext (buf : List (Nat × RequestResult)) (k : Nat) :
    Option RequestResult × List (Nat × RequestResult) :=
  match mapFind k buf with
  | some r => (some r, mapErase k buf)
  | none => (none, buf)

/-- Keys pressed in the output window during a Deliver iteration
(lines 463-492): Esc/q breaks the loop, Tab switches modes, anything else is
forwarded to the presenter. -/
inductive KeyEvent where
  | noKey
  | esc
  | tab
deriving Repr, DecidableEq

/-- The shared state of the loop (lines 317-344) together with ghost
observation fields (`delivered`, `deliveredTags`, `lastLatencyDivisor`,
`rethrown`, `finished`) that record what the run did without influencing
it. -/
structure DemoState where
  /-- `cap.isOpened()`; cleared by `cap.release()` at line 509. -/
  capOpen : Bool
  /-- line 327, the free-request queue (front = `.front()`). -/
  emptyRequests : List Req
  /-- line 334, the reorder buffer. -/
  completedRequestResults : List (Nat × RequestResult)
  /-- line 335. -/
  nextFrameId : Nat
  /-- line 336, the delivery cursor. -/
  nextFrameIdToShow : Nat
  /-- line 317, the active-mode flag. -/
  isUserSpecifiedMode : Bool
  /-- `modeInfo[true]` (line 340). -/
  modeInfoT : ModeInfo
  /-- `modeInfo[false]` (line 340). -/
  modeInfoF : ModeInfo
  /-- line 337; holds the frame id of the first callback that threw. -/
  callbackException : Option Nat
  /-- requests started (line 563) whose callbacks have not yet run. -/
  inflight : List InFlight
  /-- control thread suspended in the Tab handler's `Wait` (lines 473-477). -/
  draining : Bool
  /-- tick counter standing in for `high_resolution_clock::now()`. -/
  clock : Nat
  /-- ghost: sequence ids handed to the consumer, in order. -/
  delivered : List Nat
  /-- ghost: the `isSameMode` tag of each delivered result, in order. -/
  deliveredTags : List Bool
  /-- ghost: the divisor `modeInfo[isUserSpecifiedMode].framesCount` used by
  the latency display at lines 449-450 of the most recent delivery. -/
  lastLatencyDivisor : Option Nat
  /-- ghost: whether line 360's `std::rethrow_exception` ever executed. -/
  rethrown : Bool
  /-- ghost: `some code` once the loop has exited and `main` has returned. -/
  finished : Option Nat
deriving Repr, DecidableEq

/-- `modeInfo[b]` (line 340). -/
def DemoState.modeInfo (s : DemoState) (b : Bool) : ModeInfo :=
  if b then s.modeInfoT else s.modeInfoF

/-- Write `modeInfo[b]`. -/
def DemoState.setModeInfo (s : DemoState) (b : Bool) (mi : ModeInfo) : DemoState :=
  if b then { s with modeInfoT := mi } else { s with modeInfoF := mi }

/-- The free-request queue the Tab handler rebuilds for mode `b`
(lines 481-485) — every request of that pool; also the initial queue
(lines 328-332). -/
def allSlots (nireq : Nat) (b : Bool) : List Req :=
  if b then (List.range nireq).map (fun i => Req.mk true i) else [Req.mk false 0]

/-- The while-loop condition, lines 355-359:
`(cap.isOpened() || !completedRequestResults.empty() ||
  ((isUserSpecifiedMode && emptyRequests.size() < FLAGS_nireq) ||
   (!isUserSpecifiedMode && emptyRequests.size() == 0)))
 && callbackException == nullptr`. -/
def loopCond (nireq : Nat) (s : DemoState) : Bool :=
  (s.capOpen || !s.completedRequestResults.isEmpty ||
    ((s.isUserSpecifiedMode && decide (s.emptyRequests.length < nireq)) ||
     (!s.isUserSpecifiedMode && decide (s.emptyRequests.length = 0))))
  && s.callbackException.isNone

/-- The Deliver branch, lines 374-496: the cursor entry `r` has been removed
from the buffer (`buf` is the remainder); the cursor advances (line 379),
`framesCount` is incremented only when `isSameMode` (lines 380-382),
`latencySum` is accumulated unconditionally into the currently active mode's
metrics (lines 447-448), the latency display divides by that mode's
`framesCount` (lines 449-450), and then the pressed key is handled
(lines 463-492): Esc breaks out of the loop (return 0 after the report); Tab
flips `isUserSpecifiedMode` (line 471) and enters the blocking `Wait`
(lines 473-477), the rest of the handler running at `Act.drainEnd`. -/
def deliverStep (s : DemoState) (r : RequestResult)
    (buf : List (Nat × RequestResult)) (k : KeyEvent) : DemoState :=
  let m := s.isUserSpecifiedMode
  let mi := s.modeInfo m
  let fc := mi.framesCount + (if r.isSameMode then 1 else 0)
  let mi' := { mi with framesCount := fc,
                       latencySum := mi.latencySum + (s.clock - r.startTime) }
  let base :=
    { s.setModeInfo m mi' with
        completedRequestResults := buf,
        nextFrameIdToShow := s.nextFrameIdToShow + 1,
        delivered := s.delivered ++ [s.nextFrameIdToShow],
        deliveredTags := s.deliveredTags ++ [r.isSameMode],
        lastLatencyDivisor := some fc,
        clock := s.clock + 1 }
  match k with
  | .noKey => base
  | .esc => { base with finished := some 0 }
  | .tab => { base with isUserSpecifiedMode := !m, draining := true }

/-- The Admit branch with a successful read, lines 497-564: pop the front
free request, capture `startTime` (line 499), `frameMode` (line 522) and
`nextFrameId` into the callback, start it asynchronously and increment
`nextFrameId` (lines 563-564). -/
def admitStep (s : DemoState) : DemoState :=
  match s.emptyRequests with
  | [] => s
  | r :: rest =>
    { s with emptyRequests := rest,
             inflight := s.inflight ++
               [{ req := r, frameId := s.nextFrameId,
                  frameMode := s.isUserSpecifiedMode, startTime := s.clock }],
             nextFrameId := s.nextFrameId + 1,
             clock := s.clock + 1 }

/-- One control-thread loop iteration (lines 355-573), atomic except for the
Tab drain.  `k` is the key the consumer pressed if a Deliver happens;
`readOk` is whether `cap.read` yields a frame if an Admit happens (a failed
read with an empty frame and `FLAGS_loop_input` unset releases the capture
and continues, lines 503-514).  The `callbackException` recheck of line 360
can only fire if the exception appeared after the loop condition already
passed; stated here at the granularity where the whole iteration header is
one step, so the branch is dead. -/
def controlStep (nireq : Nat) (s : DemoState) (k : KeyEvent) (readOk : Bool) :
    DemoState :=
  if !loopCond nireq s then
    { s with finished := some 0, clock := s.clock + 1 }
  else if s.callbackException.isSome then
    { s with rethrown := true, finished := some 1, clock := s.clock + 1 }
  else
    match popIfNext s.completedRequestResults s.nextFrameIdToShow with
    | (some r, buf) => deliverStep s r buf k
    | (none, _) =>
      if !s.emptyRequests.isEmpty && s.capOpen then
        if readOk then admitStep s
        else { s with capOpen := false, clock := s.clock + 1 }
      else
        { s with clock := s.clock + 1 }

/-- The body of a completion callback, lines 536-561, run under the lock:
insert the result keyed by the captured `nextFrameId` with
`isSameMode = (frameMode == isUserSpecifiedMode)` evaluated now
(lines 546-548), and return the request to `emptyRequests` only when the
captured mode is still the active one (lines 550-552). -/
def fireStep (s : DemoState) (f : InFlight) (i : Nat) : DemoState :=
  let same := f.frameMode == s.isUserSpecifiedMode
  { s with inflight := s.inflight.eraseIdx i,
           completedRequestResults :=
             mapInsert f.frameId { startTime := f.startTime, isSameMode := same }
               s.completedRequestResults,
           emptyRequests := if same then s.emptyRequests ++ [f.req]
                            else s.emptyRequests,
           clock := s.clock + 1 }

/-- A completion callback whose body throws (e.g. `GetBlob` at line 547):
the catch block of lines 554-558 stores the exception only if none is stored
yet (first wins); nothing is inserted and the request is not returned. -/
def fireErrStep (s : DemoState) (f : InFlight) (i : Nat) : DemoState :=
  { s with inflight := s.inflight.eraseIdx i,
           callbackException :=
             match s.callbackException with
             | none => some f.frameId
             | some e => some e,
           clock := s.clock + 1 }

/-- The tail of the Tab handler after the `Wait` calls return
(lines 479-488): swap `emptyRequests` for an empty queue, refill it with
every request of the (already flipped) active mode's pool, stamp the
previous mode's `lastEndTime` and reset the new mode's metrics. -/
def drainEndStep (nireq : Nat) (s : DemoState) : DemoState :=
  let m := s.isUserSpecifiedMode
  let prev := !m
  let s1 := s.setModeInfo prev { s.modeInfo prev with lastEndTime := some s.clock }
  let s2 := s1.setModeInfo m (ModeInfo.init s.clock)
  { s2 with emptyRequests := allSlots nireq m, draining := false,
            clock := s.clock + 1 }

/-- The interleaved actions: a control-loop iteration, a normal callback for
the `i`-th in-flight unit, a throwing callback, or the control thread
resuming from the Tab handler's `Wait`. -/
inductive Act where
  | control (k : KeyEvent) (readOk : Bool)
  | fire (i : Nat)
  | fireErr (i : Nat)
  | drainEnd
deriving Repr, DecidableEq

/-- The step relation.  `none` means the action is not enabled: the control
thread cannot iterate while suspended in the Tab `Wait` or after the loop has
exited; a callback needs an in-flight unit to fire for; `drainEnd` resumes
only once no request of the waited-on (new active) pool is still in flight
— `Wait(RESULT_READY)` at lines 473-477 is issued for exactly the requests
of the pool selected by the already-flipped flag. -/
def step (nireq : Nat) (s : DemoState) : Act → Option DemoState
  | .control k readOk =>
    if s.finished.isSome || s.draining then none
    else some (controlStep nireq s k readOk)
  | .fire i =>
    if s.finished.isSome then none
    else match s.inflight[i]? with
      | none => none
      | some f => some (fireStep s f i)
  | .fireErr i =>
    if s.finished.isSome then none
    else match s.inflight[i]? with
      | none => none
      | some f => some (fireErrStep s f i)
  | .drainEnd =>
    if s.draining &&
       s.inflight.all (fun f => !(f.req.pool == s.isUserSpecifiedMode)) then
      some (drainEndStep nireq s)
    else none

/-- The state at line 355: execution always starts in USER_SPECIFIED mode
(line 317) with every user-specified request free (lines 327-332). -/
def initState (nireq : Nat) : DemoState :=
  { capOpen := true
    emptyRequests := allSlots nireq true
    completedRequestResults := []
    nextFrameId := 0
    nextFrameIdToShow := 0
    isUserSpecifiedMode := true
    modeInfoT := ModeInfo.init 0
    modeInfoF := ModeInfo.init 0
    callbackException := none
    inflight := []
    draining := false
    clock := 0
    delivered := []
    deliveredTags := []
    lastLatencyDivisor := none
    rethrown := false
    finished := none }

/-- Run a sequence of actions; `none` if any action is not enabled. -/
def run (nireq : Nat) (s : DemoState) : List Act → Option DemoState
  | [] => some s
  | a :: tr =>
    match step nireq s a with
    | none => none
    | some s' => run nireq s' tr

/-- The final report, lines 601-612 and 614-625: the per-mode FPS/latency
figures (whose latency divisor is `framesCount`) are printed only under
`if (modeInfo[b].framesCount)`. -/
def finalReportLatencyDivisor (mi : ModeInfo) : Option Nat :=
  if mi.framesCount ≠ 0 then some mi.framesCount else none

/-! ### Concrete runs used as witnesses and counterexamples -/

/-- `FLAGS_nireq = 1`, no key presses, no callback failure: admit frame 0,
its callback fires, frame 0 is delivered, the source ends, the loop exits. -/
def plainExitTrace : List Act :=
  [Act.control KeyEvent.noKey true, Act.fire 0, Act.control KeyEvent.noKey true,
   Act.control KeyEvent.noKey false, Act.control KeyEvent.noKey true]

/-- `FLAGS_nireq = 2`: admit frames 0 and 1 in USER_SPECIFIED mode, frame 0
completes and is delivered with Tab pressed (switch to MIN_LATENCY while
frame 1 is still in flight on a user-specified request), the handler's
`Wait` on the min-latency request returns at once. -/
def tabWhileInFlightTrace : List Act :=
  [Act.control KeyEvent.noKey true, Act.control KeyEvent.noKey true,
   Act.fire 0, Act.control KeyEvent.tab true, Act.drainEnd]

/-- `tabWhileInFlightTrace` continued: the cross-mode callback of frame 1
fires (tagged `isSameMode = false`, not requeued) and frame 1 is delivered
under MIN_LATENCY mode. -/
def crossModeDeliveryTrace : List Act :=
  tabWhileInFlightTrace ++ [Act.fire 0, Act.control KeyEvent.noKey true]

/-- `tabWhileInFlightTrace` continued differently: the source ends before
frame 1's callback fires, and the next loop-condition check fails (buffer
empty, min-latency request free) although frame 1 is still in flight. -/
def abandonInFlightTrace : List Act :=
  tabWhileInFlightTrace ++
  [Act.control KeyEvent.noKey false, Act.control KeyEvent.noKey true]

/-- `FLAGS_nireq = 1`: admit frame 0, its callback throws, the next
loop-condition check observes the stored exception. -/
def callbackThrowTrace : List Act :=
  [Act.control KeyEvent.noKey true, Act.fireErr 0, Act.control KeyEvent.noKey true]

/-- A state whose reorder buffer already holds an entry for frame 0 while
frame 0 is (hypothetically) still in flight: exercises the duplicate-insert
path of the completion callback. -/
def dupInsertState : DemoState :=
  { initState 1 with
      inflight := [{ req := Req.mk true 0, frameId := 0, frameMode := true,
                     startTime := 0 }],
      completedRequestResults :=
        [(0, { startTime := 5, isSameMode := false })] }

/-- `initState 1` with frame 0's result already buffered: the next control
iteration delivers it. -/
def deliverReadyState : DemoState :=
  { initState 1 with
      completedRequestResults := [(0, { startTime := 0, isSameMode := true })] }

/-- The state after the duplicate-id callback of `dupInsertState` fires. -/
def fireDupNext : DemoState :=
  (step 1 dupInsertState (Act.fire 0)).getD (initState 0)

/-- The state after `deliverReadyState` delivers frame 0 with no key. -/
def deliverReadyNext : DemoState :=
  (step 1 deliverReadyState (Act.control KeyEvent.noKey true)).getD (initState 0)

/-- The state after `deliverReadyState` delivers frame 0 with Tab pressed. -/
def deliverTabNext : DemoState :=
  (step 1 deliverReadyState (Act.control KeyEvent.tab true)).getD (initState 0)

/-- The state after the Tab handler of `deliverTabNext` finishes draining. -/
def drainEndNext : DemoState :=
  (step 1 deliverTabNext Act.drainEnd).getD (initState 0)

/-- A buffer holding only frame 1, used to probe `popIfNext` at the absent
key 0. -/
def missBuf : List (Nat × RequestResult) :=
  [(1, { startTime := 0, isSameMode := true })]

/-- The state after the first admission from `initState 1`. -/
def admitNext : DemoState :=
  (step 1 (initState 1) (Act.control KeyEvent.noKey true)).getD (initState 0)

/-! ### The locking structure of the loop

The shared variables named by the concurrency design — the free-slot queue
`emptyRequests`, the reorder buffer `completedRequestResults`, the
active-mode flag `isUserSpecifiedMode`, and the per-mode metrics `modeInfo`
— are accessed from seven regions of `main`.  Each access below is
transcribed from the cited source line, tagged with whether the region holds
`mutex` at that point (`std::lock_guard` at lines 365 and 539,
`std::unique_lock` at line 567; no other region acquires it). -/

/-- One of the four shared variables of the concurrency design (§5). -/
inductive SharedVar where
  | freeSlotSet
  | reorderBuffer
  | activeModeFlag
  | modeMetrics
deriving Repr, DecidableEq

/-- One access to a shared variable at a source line, with the lock
status of the enclosing region. -/
structure SharedAccess where
  var : SharedVar
  isWrite : Bool
  underMutex : Bool
  line : Nat
deriving Repr, DecidableEq

/-- The while-condition, lines 355-358: reads the buffer, the flag and the
free queue with no lock held. -/
def loopConditionAccesses : List SharedAccess :=
  [⟨SharedVar.reorderBuffer, false, false, 356⟩,
   ⟨SharedVar.activeModeFlag, false, false, 357⟩,
   ⟨SharedVar.freeSlotSet, false, false, 357⟩,
   ⟨SharedVar.activeModeFlag, false, false, 358⟩,
   ⟨SharedVar.freeSlotSet, false, false, 358⟩]

/-- The Deliver lookup, lines 365-371: find and erase on the buffer inside
the `lock_guard` scope of line 365. -/
def deliverLookupAccesses : List SharedAccess :=
  [⟨SharedVar.reorderBuffer, false, true, 367⟩,
   ⟨SharedVar.reorderBuffer, true, true, 370⟩]

/-- The Deliver body after the lock scope closes, lines 379-450: metric
updates and reads, and reads of the flag, all with no lock held. -/
def deliverBodyAccesses : List SharedAccess :=
  [⟨SharedVar.activeModeFlag, false, false, 381⟩,
   ⟨SharedVar.modeMetrics, true, false, 381⟩,
   ⟨SharedVar.activeModeFlag, false, false, 430⟩,
   ⟨SharedVar.activeModeFlag, false, false, 439⟩,
   ⟨SharedVar.modeMetrics, false, false, 439⟩,
   ⟨SharedVar.activeModeFlag, false, false, 447⟩,
   ⟨SharedVar.modeMetrics, true, false, 447⟩,
   ⟨SharedVar.modeMetrics, false, false, 449⟩]

/-- The Tab handler, lines 470-488: flips the flag, swaps and refills the
free queue and resets the metrics with no lock held. -/
def tabHandlerAccesses : List SharedAccess :=
  [⟨SharedVar.activeModeFlag, false, false, 470⟩,
   ⟨SharedVar.activeModeFlag, true, false, 471⟩,
   ⟨SharedVar.activeModeFlag, false, false, 473⟩,
   ⟨SharedVar.freeSlotSet, true, false, 480⟩,
   ⟨SharedVar.activeModeFlag, false, false, 481⟩,
   ⟨SharedVar.freeSlotSet, true, false, 483⟩,
   ⟨SharedVar.freeSlotSet, true, false, 485⟩,
   ⟨SharedVar.modeMetrics, true, false, 487⟩,
   ⟨SharedVar.modeMetrics, true, false, 488⟩]

/-- The Admit branch, lines 497-522: tests, reads and pops the free queue
and reads the flag for `frameMode` with no lock held. -/
def admitAccesses : List SharedAccess :=
  [⟨SharedVar.freeSlotSet, false, false, 497⟩,
   ⟨SharedVar.freeSlotSet, false, false, 516⟩,
   ⟨SharedVar.freeSlotSet, true, false, 517⟩,
   ⟨SharedVar.activeModeFlag, false, false, 522⟩]

/-- The Wait branch predicate, line 569, evaluated under the `unique_lock`
of line 567. -/
def waitBranchAccesses : List SharedAccess :=
  [⟨SharedVar.freeSlotSet, false, true, 569⟩,
   ⟨SharedVar.reorderBuffer, false, true, 569⟩]

/-- The completion callback body, lines 546-551, inside the `lock_guard`
scope of line 539. -/
def callbackAccesses : List SharedAccess :=
  [⟨SharedVar.reorderBuffer, true, true, 546⟩,
   ⟨SharedVar.activeModeFlag, false, true, 548⟩,
   ⟨SharedVar.activeModeFlag, false, true, 550⟩,
   ⟨SharedVar.freeSlotSet, true, true, 551⟩]

/-- Every shared-variable access of the loop and its callbacks. -/
def allSharedAccesses : List SharedAccess :=
  loopConditionAccesses ++ deliverLookupAccesses ++ deliverBodyAccesses ++
  tabHandlerAccesses ++ admitAccesses ++ waitBranchAccesses ++ callbackAccesses

/-! ### Predicates and invariants -/

/-- The actions available to a completion-order adversary: control
iterations with no key pressed (the read may succeed or signal end of
stream), and normal callback firings in any order — no Tab, no Esc, no
callback failure. -/
def benignAct : Act → Bool
  | Act.control k _ => k == KeyEvent.noKey
  | Act.fire _ => true
  | Act.fireErr _ => false
  | Act.drainEnd => false

/-- Every unit in flight after a step either was already in flight before it
or occupies a request that no in-flight unit was using — i.e. the step did
not submit to a busy request (`StartAsync` on a busy request would raise
the `AlreadyBusy`-class error). -/
def noDoubleSubmission (pre post : DemoState) : Bool :=
  post.inflight.all (fun f' =>
    decide (f' ∈ pre.inflight) ||
    pre.inflight.all (fun f => decide (f'.req ≠ f.req)))

/-- The state just before the final loop-condition check of
`abandonInFlightTrace`. -/
def abandonPrefixState : DemoState :=
  (run 2 (initState 2)
    (tabWhileInFlightTrace ++ [Act.control KeyEvent.noKey false])).getD
    (initState 0)

/-- The exit state of `abandonInFlightTrace`. -/
def abandonFinalState : DemoState :=
  (step 2 abandonPrefixState (Act.control KeyEvent.noKey true)).getD (initState 0)

/-- The exit state of `plainExitTrace`. -/
def plainExitFinal : DemoState :=
  (run 1 (initState 1) plainExitTrace).getD (initState 0)

/-- Invariant holding in every reachable state, whatever the actions: while
the control thread is not inside the Tab handler's `Wait`, every free
request belongs to the active pool; no request is both free and in flight,
and none is listed twice; while additionally no callback has thrown, the
free queue and the active pool's in-flight units account for the whole
active pool; and each in-flight unit's request belongs to the pool of the
mode captured at its submission. -/
structure SlotInv (nireq : Nat) (s : DemoState) : Prop where
  nodup : (s.emptyRequests ++ s.inflight.map (fun f => f.req)).Nodup
  freePool : s.draining = false →
    ∀ r ∈ s.emptyRequests, r.pool = s.isUserSpecifiedMode
  poolCount : s.draining = false → s.callbackException = none →
    s.emptyRequests.length +
      (s.inflight.filter (fun f => f.req.pool == s.isUserSpecifiedMode)).length
      = (allSlots nireq s.isUserSpecifiedMode).length
  flightPool : ∀ f ∈ s.inflight, f.req.pool = f.frameMode

/-- Invariant holding along runs driven only by `benignAct` actions: the
mode never leaves USER_SPECIFIED, nothing drains or throws, the delivered
ids are exactly `0..nextFrameIdToShow-1` in order, the free queue and the
in-flight units partition the `nireq` user-specified requests, every
submission was made in USER_SPECIFIED mode, the buffered and in-flight ids
are together exactly the ids admitted but not yet delivered, and once the
loop has exited every admitted id has been delivered. -/
structure OrderInv (nireq : Nat) (s : DemoState) : Prop where
  mode : s.isUserSpecifiedMode = true
  drain : s.draining = false
  exc : s.callbackException = none
  deliv : s.delivered = List.range s.nextFrameIdToShow
  slots : s.emptyRequests.length + s.inflight.length = nireq
  flightMode : ∀ f ∈ s.inflight, f.frameMode = true
  ids : (s.completedRequestResults.map Prod.fst ++
          s.inflight.map (fun f => f.frameId)).Perm
        (List.range' s.nextFrameIdToShow (s.nextFrameId - s.nextFrameIdToShow))
  cursorLe : s.nextFrameIdToShow ≤ s.nextFrameId
  fin : s.finished = none ∨ s.nextFrameIdToShow = s.nextFrameId

end OdSsdAsync

namespace OdSsdAsync

instance : Inhabited DemoState := ⟨initState 0⟩

/-! ### Projection lemmas for the state update helpers -/

theorem setModeInfo_capOpen (s : DemoState) (b : Bool) (mi : ModeInfo) :
    (s.setModeInfo b mi).capOpen = s.capOpen := by
  unfold DemoState.setModeInfo; split <;> rfl

theorem setModeInfo_emptyRequests (s : DemoState) (b : Bool) (mi : ModeInfo) :
    (s.setModeInfo b mi).emptyRequests = s.emptyRequests := by
  unfold DemoState.setModeInfo; split <;> rfl

theorem setModeInfo_completed (s : DemoState) (b : Bool) (mi : ModeInfo) :
    (s.setModeInfo b mi).completedRequestResults = s.completedRequestResults := by
  unfold DemoState.setModeInfo; split <;> rfl

theorem setModeInfo_nextFrameId (s : DemoState) (b : Bool) (mi : ModeInfo) :
    (s.setModeInfo b mi).nextFrameId = s.nextFrameId := by
  unfold DemoState.setModeInfo; split <;> rfl

theorem setModeInfo_nextFrameIdToShow (s : DemoState) (b : Bool) (mi : ModeInfo) :
    (s.setModeInfo b mi).nextFrameIdToShow = s.nextFrameIdToShow := by
  unfold DemoState.setModeInfo; split <;> rfl

theorem setModeInfo_isUserSpecifiedMode (s : DemoState) (b : Bool) (mi : ModeInfo) :
    (s.setModeInfo b mi).isUserSpecifiedMode = s.isUserSpecifiedMode := by
  unfold DemoState.setModeInfo; split <;> rfl

theorem setModeInfo_callbackException (s : DemoState) (b : Bool) (mi : ModeInfo) :
    (s.setModeInfo b mi).callbackException = s.callbackException := by
  unfold DemoState.setModeInfo; split <;> rfl

theorem setModeInfo_inflight (s : DemoState) (b : Bool) (mi : ModeInfo) :
    (s.setModeInfo b mi).inflight = s.inflight := by
  unfold DemoState.setModeInfo; split <;> rfl

theorem setModeInfo_draining (s : DemoState) (b : Bool) (mi : ModeInfo) :
    (s.setModeInfo b mi).draining = s.draining := by
  unfold DemoState.setModeInfo; split <;> rfl

theorem setModeInfo_clock (s : DemoState) (b : Bool) (mi : ModeInfo) :
    (s.setModeInfo b mi).clock = s.clock := by
  unfold DemoState.setModeInfo; split <;> rfl

theorem setModeInfo_delivered (s : DemoState) (b : Bool) (mi : ModeInfo) :
    (s.setModeInfo b mi).delivered = s.delivered := by
  unfold DemoState.setModeInfo; split <;> rfl

theorem setModeInfo_deliveredTags (s : DemoState) (b : Bool) (mi : ModeInfo) :
    (s.setModeInfo b mi).deliveredTags = s.deliveredTags := by
  unfold DemoState.setModeInfo; split <;> rfl

theorem setModeInfo_finished (s : DemoState) (b : Bool) (mi : ModeInfo) :
    (s.setModeInfo b mi).finished = s.finished := by
  unfold DemoState.setModeInfo; split <;> rfl

theorem setModeInfo_rethrown (s : DemoState) (b : Bool) (mi : ModeInfo) :
    (s.setModeInfo b mi).rethrown = s.rethrown := by
  unfold DemoState.setModeInfo; split <;> rfl

theorem modeInfo_setModeInfo_same (s : DemoState) (b : Bool) (mi : ModeInfo) :
    (s.setModeInfo b mi).modeInfo b = mi := by
  cases b <;> rfl

theorem modeInfo_setModeInfo_other (s : DemoState) (b : Bool) (mi : ModeInfo) :
    (s.setModeInfo b mi).modeInfo (!b) = s.modeInfo (!b) := by
  cases b <;> rfl

/-! ### Lemmas about the association-list embedding of `std::map` -/

theorem mapFind_eq_none_iff (k : Nat) :
    ∀ m : List (Nat × RequestResult),
      mapFind k m = none ↔ k ∉ m.map Prod.fst := by
  intro m
  induction m with
  | nil => simp [mapFind]
  | cons p rest ih =>
    obtain ⟨k', v⟩ := p
    by_cases hk : k' = k
    · subst hk; simp [mapFind]
    · have hne : ¬ k = k' := fun h => hk h.symm
      rw [show mapFind k ((k', v) :: rest) = mapFind k rest from by
        simp [mapFind, hk]]
      rw [ih]
      simp only [List.map_cons, List.mem_cons]
      tauto

theorem mapFind_isSome_iff (k : Nat) (m : List (Nat × RequestResult)) :
    (mapFind k m).isSome ↔ k ∈ m.map Prod.fst := by
  rcases h : mapFind k m with _ | r
  · simpa [h] using (mapFind_eq_none_iff k m).mp h
  · have : ¬ mapFind k m = none := by simp [h]
    simpa [h] using (fun hmem => this ((mapFind_eq_none_iff k m).mpr hmem))

theorem mapInsert_of_present (k : Nat) (v : RequestResult)
    (m : List (Nat × RequestResult)) (h : (mapFind k m).isSome) :
    mapInsert k v m = m := by
  simp [mapInsert, h]

theorem mapInsert_of_absent (k : Nat) (v : RequestResult)
    (m : List (Nat × RequestResult)) (h : mapFind k m = none) :
    mapInsert k v m = m ++ [(k, v)] := by
  simp [mapInsert, h]

/-- Removing a present key from the buffer: the key multiset loses exactly
that key. -/
theorem mapErase_perm (k : Nat) (r : RequestResult) :
    ∀ m : List (Nat × RequestResult), mapFind k m = some r →
      (m.map Prod.fst).Perm (k :: (mapErase k m).map Prod.fst) := by
  intro m
  induction m with
  | nil => intro h; simp [mapFind] at h
  | cons p rest ih =>
    obtain ⟨k', v⟩ := p
    intro h
    by_cases hk : k' = k
    · subst hk; simp [mapErase]
    · have hfind : mapFind k rest = some r := by
        simpa [mapFind, hk] using h
      have h2 : List.Perm (k' :: rest.map Prod.fst)
          (k' :: k :: (mapErase k rest).map Prod.fst) := (ih hfind).cons k'
      have h3 : List.Perm (k' :: k :: (mapErase k rest).map Prod.fst)
          (k :: k' :: (mapErase k rest).map Prod.fst) := List.Perm.swap k k' _
      simpa [mapErase, hk] using h2.trans h3

/-- A list is a permutation of any of its elements consed onto the list with
that element's index erased. -/
theorem perm_cons_eraseIdx {α : Type} :
    ∀ (l : List α) (i : Nat) (x : α), l[i]? = some x →
      l.Perm (x :: l.eraseIdx i) := by
  intro l
  induction l with
  | nil => intro i x h; simp at h
  | cons a as ih =>
    intro i x h
    cases i with
    | zero =>
      simp at h
      subst h
      simp [List.eraseIdx]
    | succ j =>
      have h' : as[j]? = some x := by simpa using h
      have h2 : List.Perm (a :: as) (a :: x :: as.eraseIdx j) :=
        (ih j x h').cons a
      have h3 : List.Perm (a :: x :: as.eraseIdx j) (x :: a :: as.eraseIdx j) :=
        List.Perm.swap x a _
      simpa [List.eraseIdx] using h2.trans h3

end OdSsdAsync

namespace OdSsdAsync

/-! ### Inversion lemmas for `popIfNext` and the step function -/

theorem popIfNext_eq_some {buf : List (Nat × RequestResult)} {k : Nat}
    {r : RequestResult} {buf' : List (Nat × RequestResult)}
    (h : popIfNext buf k = (some r, buf')) :
    mapFind k buf = some r ∧ buf' = mapErase k buf := by
  unfold popIfNext at h
  rcases hf : mapFind k buf with _ | r'
  · rw [hf] at h; simp at h
  · rw [hf] at h
    simp only [Prod.mk.injEq, Option.some.injEq] at h
    exact ⟨congrArg some h.1, h.2.symm⟩

theorem popIfNext_eq_none {buf : List (Nat × RequestResult)} {k : Nat}
    {buf' : List (Nat × RequestResult)}
    (h : popIfNext buf k = (none, buf')) :
    mapFind k buf = none ∧ buf' = buf := by
  unfold popIfNext at h
  rcases hf : mapFind k buf with _ | r'
  · rw [hf] at h
    simp only [Prod.mk.injEq] at h
    exact ⟨rfl, h.2.symm⟩
  · rw [hf] at h; simp at h

theorem popIfNext_of_find_some {buf : List (Nat × RequestResult)} {k : Nat}
    {r : RequestResult} (h : mapFind k buf = some r) :
    popIfNext buf k = (some r, mapErase k buf) := by
  unfold popIfNext; rw [h]

theorem popIfNext_of_find_none {buf : List (Nat × RequestResult)} {k : Nat}
    (h : mapFind k buf = none) :
    popIfNext buf k = (none, buf) := by
  unfold popIfNext; rw [h]

/-- Inversion of a `control` step. -/
theorem step_control_eq {nireq : Nat} {s s' : DemoState} {k : KeyEvent}
    {ro : Bool} (h : step nireq s (Act.control k ro) = some s') :
    s.finished = none ∧ s.draining = false ∧ s' = controlStep nireq s k ro := by
  simp only [step] at h
  split at h
  · exact absurd h (by simp)
  · next hg =>
    simp only [Bool.or_eq_true, not_or, Bool.not_eq_true] at hg
    refine ⟨?_, hg.2, (Option.some.inj h).symm⟩
    cases hf : s.finished with
    | none => rfl
    | some c => rw [hf] at hg; simp at hg

/-- Inversion of a `fire` step. -/
theorem step_fire_eq {nireq : Nat} {s s' : DemoState} {i : Nat}
    (h : step nireq s (Act.fire i) = some s') :
    s.finished = none ∧ ∃ f, s.inflight[i]? = some f ∧ s' = fireStep s f i := by
  simp only [step] at h
  split at h
  · exact absurd h (by simp)
  · next hg =>
    split at h
    · exact absurd h (by simp)
    · next f hf =>
      refine ⟨?_, f, hf, (Option.some.inj h).symm⟩
      cases hfin : s.finished with
      | none => rfl
      | some c => rw [hfin] at hg; simp at hg

/-- Inversion of a `fireErr` step. -/
theorem step_fireErr_eq {nireq : Nat} {s s' : DemoState} {i : Nat}
    (h : step nireq s (Act.fireErr i) = some s') :
    s.finished = none ∧ ∃ f, s.inflight[i]? = some f ∧ s' = fireErrStep s f i := by
  simp only [step] at h
  split at h
  · exact absurd h (by simp)
  · next hg =>
    split at h
    · exact absurd h (by simp)
    · next f hf =>
      refine ⟨?_, f, hf, (Option.some.inj h).symm⟩
      cases hfin : s.finished with
      | none => rfl
      | some c => rw [hfin] at hg; simp at hg

/-- Inversion of a `drainEnd` step. -/
theorem step_drainEnd_eq {nireq : Nat} {s s' : DemoState}
    (h : step nireq s Act.drainEnd = some s') :
    s.draining = true ∧
    (∀ f ∈ s.inflight, f.req.pool ≠ s.isUserSpecifiedMode) ∧
    s' = drainEndStep nireq s := by
  simp only [step] at h
  split at h
  · next hg =>
    simp only [Bool.and_eq_true, List.all_eq_true] at hg
    refine ⟨hg.1, ?_, (Option.some.inj h).symm⟩
    intro f hf
    have := hg.2 f hf
    simpa using this
  · exact absurd h (by simp)

/-- The cursor after one control iteration: unchanged unless the cursor's
entry was present in the buffer, in which case it advances by one. -/
theorem controlStep_cursor (nireq : Nat) (s : DemoState) (k : KeyEvent)
    (ro : Bool) :
    (controlStep nireq s k ro).nextFrameIdToShow = s.nextFrameIdToShow ∨
    ((controlStep nireq s k ro).nextFrameIdToShow = s.nextFrameIdToShow + 1 ∧
     (mapFind s.nextFrameIdToShow s.completedRequestResults).isSome) := by
  unfold controlStep
  split
  · left; rfl
  · split
    · left; rfl
    · split
      · next r buf heq =>
        right
        refine ⟨?_, by simp [(popIfNext_eq_some heq).1]⟩
        unfold deliverStep
        cases k <;> rfl
      · next buf heq =>
        left
        split
        · split
          · unfold admitStep
            split <;> rfl
          · rfl
        · rfl

end OdSsdAsync

namespace OdSsdAsync

/-- A control iteration whose cursor entry is present (and no exception is
stored) executes the Deliver branch. -/
theorem controlStep_deliver {nireq : Nat} {s : DemoState} {k : KeyEvent}
    {ro : Bool} {r : RequestResult}
    (hfind : mapFind s.nextFrameIdToShow s.completedRequestResults = some r)
    (hexc : s.callbackException = none) :
    controlStep nireq s k ro =
      deliverStep s r (mapErase s.nextFrameIdToShow s.completedRequestResults) k := by
  have hcond : loopCond nireq s = true := by
    unfold loopCond
    have hne : s.completedRequestResults.isEmpty = false := by
      cases hb : s.completedRequestResults with
      | nil => rw [hb] at hfind; simp [mapFind] at hfind
      | cons p rest => rfl
    simp [hne, hexc]
  unfold controlStep
  rw [if_neg (by simp [hcond]), if_neg (by simp [hexc]),
    popIfNext_of_find_some hfind]

/-- C6: for any buffer state and any id not present in the reorder buffer,
the locked lookup of lines 364-372 returns no result and leaves the buffer
unchanged — hence repeating it is a no-op — and the cursor
`nextFrameIdToShow` is advanced by a step only when the lookup at the cursor
succeeds, and then by exactly one (line 379). -/
theorem c6_popIfNext_idempotent_cursor :
    (∀ (buf : List (Nat × RequestResult)) (k : Nat),
       mapFind k buf = none → popIfNext buf k = (none, buf)) ∧
    (∀ (nireq : Nat) (s s' : DemoState) (a : Act),
       step nireq s a = some s' →
       s'.nextFrameIdToShow = s.nextFrameIdToShow ∨
       (s'.nextFrameIdToShow = s.nextFrameIdToShow + 1 ∧
        (mapFind s.nextFrameIdToShow s.completedRequestResults).isSome)) := by
  constructor
  · intro buf k h
    exact popIfNext_of_find_none h
  · intro nireq s s' a h
    cases a with
    | control k ro =>
      obtain ⟨-, -, hs'⟩ := step_control_eq h
      rw [hs']
      exact controlStep_cursor nireq s k ro
    | fire i =>
      obtain ⟨-, f, -, hs'⟩ := step_fire_eq h
      left; rw [hs']; rfl
    | fireErr i =>
      obtain ⟨-, f, -, hs'⟩ := step_fireErr_eq h
      left; rw [hs']; rfl
    | drainEnd =>
      obtain ⟨-, -, hs'⟩ := step_drainEnd_eq h
      left; rw [hs']
      simp [drainEndStep, setModeInfo_nextFrameIdToShow]

/-- Witness for `c6_popIfNext_idempotent_cursor`: the lookup at the absent
key 0 of a buffer holding only key 1, and the cursor across the first
admission step from the initial state. -/
theorem c6_popIfNext_idempotent_cursor_witness :
    popIfNext missBuf 0 = (none, missBuf) ∧
    (admitNext.nextFrameIdToShow = (initState 1).nextFrameIdToShow ∨
     (admitNext.nextFrameIdToShow = (initState 1).nextFrameIdToShow + 1 ∧
      (mapFind (initState 1).nextFrameIdToShow
        (initState 1).completedRequestResults).isSome)) :=
  ⟨c6_popIfNext_idempotent_cursor.1 missBuf 0 rfl,
   c6_popIfNext_idempotent_cursor.2 1 (initState 1) admitNext
     (Act.control KeyEvent.noKey true) rfl⟩

/-- C5 counterexample: in a state whose reorder buffer already holds an
entry for frame 0, the completion callback for a second frame 0 leaves the
buffer entry exactly as it was (the value `{5, false}` is kept, the new
`{0, true}` is dropped), raises no error and does not abort the run —
`std::map::insert` silently ignores the duplicate instead of failing with
`DuplicateSequenceId`. -/
theorem c5_duplicate_insert_ignored_counterexample :
    (step 1 dupInsertState (Act.fire 0)).map (fun t =>
        (t.completedRequestResults, t.callbackException, t.finished))
      = some ([(0, { startTime := 5, isSameMode := false })], none, none) := by
  rfl

/-- C5 (amended): inserting into the reorder buffer with a sequence id that
is already present leaves the buffer unchanged, and a normal completion
callback never stores an exception nor ends the run — the duplicate is
silently ignored rather than failing with `DuplicateSequenceId` and
aborting. -/
theorem c5_duplicate_insert_silent :
    (∀ (k : Nat) (v : RequestResult) (m : List (Nat × RequestResult)),
       (mapFind k m).isSome → mapInsert k v m = m) ∧
    (∀ (nireq : Nat) (s s' : DemoState) (i : Nat),
       step nireq s (Act.fire i) = some s' →
       s'.callbackException = s.callbackException ∧ s'.finished = s.finished) := by
  constructor
  · intro k v m h
    simp [mapInsert, h]
  · intro nireq s s' i h
    obtain ⟨-, f, -, hs'⟩ := step_fire_eq h
    rw [hs']
    exact ⟨rfl, rfl⟩

/-- Witness for `c5_duplicate_insert_silent` at the duplicate-id state. -/
theorem c5_duplicate_insert_silent_witness :
    mapInsert 0 { startTime := 0, isSameMode := true }
        dupInsertState.completedRequestResults
      = dupInsertState.completedRequestResults ∧
    (fireDupNext.callbackException = dupInsertState.callbackException ∧
     fireDupNext.finished = dupInsertState.finished) :=
  ⟨c5_duplicate_insert_silent.1 0 _ dupInsertState.completedRequestResults rfl,
   c5_duplicate_insert_silent.2 1 dupInsertState fireDupNext 0 rfl⟩

/-- C2 counterexample: in the run `crossModeDeliveryTrace`, frame 1 is
submitted under USER_SPECIFIED mode, completes after the switch (tag
`isSameMode = false`, the second entry of `deliveredTags`), and is consumed
under MIN_LATENCY mode: the min-latency `framesCount` stays 0, yet the
min-latency `latencySum` grows from 0 (its post-switch reset) to 5 — so
`latency_sum` is updated although `produced_in_active_mode` is false, and
the latency of a unit submitted under USER_SPECIFIED mode is credited to
MIN_LATENCY mode. -/
theorem c2_latency_sum_unconditional_counterexample :
    (run 2 (initState 2) crossModeDeliveryTrace).map (fun t =>
        (t.deliveredTags, t.modeInfoF.framesCount, t.modeInfoF.latencySum))
      = some ([true, false], 0, 5) := by
  rfl

/-- C2 (amended): on every consumed result, the currently-active mode's
`framesCount` increases by one exactly when the result's `isSameMode` tag is
true (lines 380-382), while its `latencySum` increases by the result's age
unconditionally (lines 447-448); the inactive mode's metrics are untouched.
Both updates go to the mode active at delivery time, not to the mode the
unit was submitted under. -/
theorem c2_metrics_at_delivery :
    ∀ (nireq : Nat) (s s' : DemoState) (k : KeyEvent) (ro : Bool)
      (r : RequestResult),
      step nireq s (Act.control k ro) = some s' →
      mapFind s.nextFrameIdToShow s.completedRequestResults = some r →
      s.callbackException = none →
      (s'.modeInfo s.isUserSpecifiedMode).framesCount
          = (s.modeInfo s.isUserSpecifiedMode).framesCount
            + (if r.isSameMode then 1 else 0) ∧
      (s'.modeInfo s.isUserSpecifiedMode).latencySum
          = (s.modeInfo s.isUserSpecifiedMode).latencySum
            + (s.clock - r.startTime) ∧
      s'.modeInfo (!s.isUserSpecifiedMode) = s.modeInfo (!s.isUserSpecifiedMode) := by
  intro nireq s s' k ro r h hfind hexc
  obtain ⟨-, -, hs'⟩ := step_control_eq h
  rw [hs', controlStep_deliver hfind hexc]
  cases k <;> cases hm : s.isUserSpecifiedMode <;>
    simp [deliverStep, DemoState.modeInfo, DemoState.setModeInfo, hm]

/-- Witness for `c2_metrics_at_delivery`: delivering the buffered frame 0 of
`deliverReadyState`. -/
theorem c2_metrics_at_delivery_witness :
    (deliverReadyNext.modeInfo deliverReadyState.isUserSpecifiedMode).framesCount
        = (deliverReadyState.modeInfo deliverReadyState.isUserSpecifiedMode).framesCount
          + (if ({ startTime := 0, isSameMode := true } : RequestResult).isSameMode
             then 1 else 0) ∧
    (deliverReadyNext.modeInfo deliverReadyState.isUserSpecifiedMode).latencySum
        = (deliverReadyState.modeInfo deliverReadyState.isUserSpecifiedMode).latencySum
          + (deliverReadyState.clock
             - ({ startTime := 0, isSameMode := true } : RequestResult).startTime) ∧
    deliverReadyNext.modeInfo (!deliverReadyState.isUserSpecifiedMode)
        = deliverReadyState.modeInfo (!deliverReadyState.isUserSpecifiedMode) :=
  c2_metrics_at_delivery 1 deliverReadyState deliverReadyNext KeyEvent.noKey true
    { startTime := 0, isSameMode := true } rfl rfl rfl

/-- C3 counterexample: in the run `tabWhileInFlightTrace`, the Tab handler
runs to completion (the flag is flipped to MIN_LATENCY, `draining` is over,
and the free queue has been rebuilt to the min-latency pool's single
request) while frame 1 — mid-flight under the PREVIOUS (user-specified)
mode — is still in flight: the previous mode's pool was not drained; the
`Wait` calls of lines 473-477 target the pool selected by the
already-flipped flag, i.e. the NEW pool. -/
theorem c3_previous_pool_not_drained_counterexample :
    (run 2 (initState 2) tabWhileInFlightTrace).map (fun t =>
        (t.draining, t.isUserSpecifiedMode, t.emptyRequests,
         t.inflight.map (fun f => (f.req.pool, f.frameId))))
      = some (false, false, [Req.mk false 0], [(true, 1)]) := by
  rfl

/-- C3 (amended): the mode-switch handler first flips the active-mode flag
(line 471) and then blocks until every request of the NEW active mode's pool
is idle — `drainEnd` requires no in-flight unit of the post-flip active
pool — before rebuilding that pool's free queue to contain every one of its
requests (lines 479-485); the previous pool's in-flight units are left
untouched by the whole handler. -/
theorem c3_flip_then_drain_new_pool :
    (∀ (nireq : Nat) (s s' : DemoState) (ro : Bool) (r : RequestResult),
       step nireq s (Act.control KeyEvent.tab ro) = some s' →
       mapFind s.nextFrameIdToShow s.completedRequestResults = some r →
       s.callbackException = none →
       s'.isUserSpecifiedMode = !s.isUserSpecifiedMode ∧
       s'.draining = true ∧
       s'.emptyRequests = s.emptyRequests ∧
       s'.inflight = s.inflight) ∧
    (∀ (nireq : Nat) (s s' : DemoState),
       step nireq s Act.drainEnd = some s' →
       (∀ f ∈ s.inflight, f.req.pool ≠ s.isUserSpecifiedMode) ∧
       s'.emptyRequests = allSlots nireq s.isUserSpecifiedMode ∧
       s'.inflight = s.inflight ∧
       s'.isUserSpecifiedMode = s.isUserSpecifiedMode ∧
       s'.draining = false) := by
  constructor
  · intro nireq s s' ro r h hfind hexc
    obtain ⟨-, -, hs'⟩ := step_control_eq h
    rw [hs', controlStep_deliver hfind hexc]
    refine ⟨rfl, rfl, ?_, ?_⟩ <;>
      simp [deliverStep, setModeInfo_emptyRequests, setModeInfo_inflight]
  · intro nireq s s' h
    obtain ⟨-, hpool, hs'⟩ := step_drainEnd_eq h
    rw [hs']
    refine ⟨hpool, rfl, ?_, ?_, rfl⟩ <;>
      simp [drainEndStep, setModeInfo_inflight, setModeInfo_isUserSpecifiedMode]

/-- Witness for `c3_flip_then_drain_new_pool`: the Tab press while frame 0
is being delivered from `deliverReadyState`, followed by the drain
completion. -/
theorem c3_flip_then_drain_new_pool_witness :
    (deliverTabNext.isUserSpecifiedMode = !deliverReadyState.isUserSpecifiedMode ∧
     deliverTabNext.draining = true ∧
     deliverTabNext.emptyRequests = deliverReadyState.emptyRequests ∧
     deliverTabNext.inflight = deliverReadyState.inflight) ∧
    ((∀ f ∈ deliverTabNext.inflight,
        f.req.pool ≠ deliverTabNext.isUserSpecifiedMode) ∧
     drainEndNext.emptyRequests = allSlots 1 deliverTabNext.isUserSpecifiedMode ∧
     drainEndNext.inflight = deliverTabNext.inflight ∧
     drainEndNext.isUserSpecifiedMode = deliverTabNext.isUserSpecifiedMode ∧
     drainEndNext.draining = false) :=
  ⟨c3_flip_then_drain_new_pool.1 1 deliverReadyState deliverTabNext true
     { startTime := 0, isSameMode := true } rfl rfl rfl,
   c3_flip_then_drain_new_pool.2 1 deliverTabNext drainEndNext rfl⟩

/-- C4: when the only admitted frame's callback throws, the stored
exception (first-wins, frame 0) makes the next while-condition check fail —
the `&& callbackException == nullptr` conjunct of line 359 exits the loop
before line 360's `std::rethrow_exception` can run — so the run ends with
exit status 0, the exception never rethrown; and no control iteration can
ever execute the rethrow of line 360, because the same condition that
guards the loop body already required the exception slot to be empty. -/
theorem c4_callback_exception_swallowed :
    ((run 1 (initState 1) callbackThrowTrace).map (fun t =>
        (t.callbackException, t.rethrown, t.finished))
      = some (some 0, false, some 0)) ∧
    (∀ (nireq : Nat) (s : DemoState) (k : KeyEvent) (ro : Bool),
       (controlStep nireq s k ro).rethrown = s.rethrown) := by
  constructor
  · rfl
  · intro nireq s k ro
    unfold controlStep
    split
    · rfl
    · next h1 =>
      split
      · next h2 =>
        exfalso
        have hl : loopCond nireq s = true := by
          cases hc : loopCond nireq s
          · rw [hc] at h1; simp at h1
          · rfl
        unfold loopCond at hl
        simp only [Bool.and_eq_true] at hl
        rcases hx : s.callbackException with _ | e
        · rw [hx] at h2; simp at h2
        · rw [hx] at hl; simp at hl
      · split
        · next r buf heq =>
          cases k <;> simp [deliverStep, setModeInfo_rethrown]
        · next buf heq =>
          split
          · split
            · unfold admitStep
              split <;> rfl
            · rfl
          · rfl

/-- C9 counterexample: it is not the case that every access to the shared
state occurs under the mutex — the Tab handler, the Admit branch, the
Deliver body's metric updates and the loop condition all touch the
free-slot queue, the active-mode flag, the metrics or the buffer with no
lock held. -/
theorem c9_unlocked_accesses_counterexample :
    allSharedAccesses.all (fun a => a.underMutex) = false := by
  rfl

/-- C9 (amended): the completion callbacks, the Deliver branch's buffer
lookup/erase and the Wait branch's predicate perform all their
shared-state accesses under the single mutex, but every other control-thread
region — the while-condition, the Deliver body's flag reads and metric
updates, the Tab handler and the Admit branch — accesses shared state with
no lock held. -/
theorem c9_locking_discipline :
    (deliverLookupAccesses ++ waitBranchAccesses ++ callbackAccesses).all
        (fun a => a.underMutex) = true ∧
    (loopConditionAccesses ++ deliverBodyAccesses ++ tabHandlerAccesses ++
        admitAccesses).all (fun a => !a.underMutex) = true := by
  exact ⟨rfl, rfl⟩

/-- C10: in the run `crossModeDeliveryTrace`, the first result consumed
after the mode switch was produced under the other mode, so the frame
counter (reset by the switch) was not incremented and the latency display of
lines 449-450 divides by `framesCount = 0` (`lastLatencyDivisor` records the
divisor); by contrast the final report (lines 601-625) prints a mode's
latency figure only under `if (modeInfo[b].framesCount)`, so its divisor is
always positive. -/
theorem c10_latency_display_divisor_zero :
    ((run 2 (initState 2) crossModeDeliveryTrace).map (fun t =>
        (t.lastLatencyDivisor, t.deliveredTags))
      = some (some 0, [true, false])) ∧
    (∀ mi : ModeInfo, 0 < (finalReportLatencyDivisor mi).getD 1) := by
  constructor
  · rfl
  · intro mi
    unfold finalReportLatencyDivisor
    split
    · next h => simpa using Nat.pos_of_ne_zero h
    · simp

end OdSsdAsync

namespace OdSsdAsync

/-! ### Component lemmas for the step helpers -/

theorem deliverStep_fields (s : DemoState) (r : RequestResult)
    (buf : List (Nat × RequestResult)) (k : KeyEvent) :
    (deliverStep s r buf k).emptyRequests = s.emptyRequests ∧
    (deliverStep s r buf k).inflight = s.inflight ∧
    (deliverStep s r buf k).callbackException = s.callbackException ∧
    (deliverStep s r buf k).capOpen = s.capOpen ∧
    (deliverStep s r buf k).nextFrameId = s.nextFrameId ∧
    (deliverStep s r buf k).completedRequestResults = buf ∧
    (deliverStep s r buf k).nextFrameIdToShow = s.nextFrameIdToShow + 1 ∧
    (deliverStep s r buf k).delivered = s.delivered ++ [s.nextFrameIdToShow] := by
  cases k <;>
    simp [deliverStep, setModeInfo_emptyRequests, setModeInfo_inflight,
      setModeInfo_callbackException, setModeInfo_capOpen, setModeInfo_nextFrameId,
      setModeInfo_completed, setModeInfo_nextFrameIdToShow, setModeInfo_delivered]

theorem deliverStep_noKey_fields (s : DemoState) (r : RequestResult)
    (buf : List (Nat × RequestResult)) :
    (deliverStep s r buf KeyEvent.noKey).isUserSpecifiedMode
        = s.isUserSpecifiedMode ∧
    (deliverStep s r buf KeyEvent.noKey).draining = s.draining ∧
    (deliverStep s r buf KeyEvent.noKey).finished = s.finished := by
  simp [deliverStep, setModeInfo_isUserSpecifiedMode, setModeInfo_draining,
    setModeInfo_finished]

theorem deliverStep_esc_fields (s : DemoState) (r : RequestResult)
    (buf : List (Nat × RequestResult)) :
    (deliverStep s r buf KeyEvent.esc).isUserSpecifiedMode
        = s.isUserSpecifiedMode ∧
    (deliverStep s r buf KeyEvent.esc).draining = s.draining ∧
    (deliverStep s r buf KeyEvent.esc).finished = some 0 := by
  simp [deliverStep, setModeInfo_isUserSpecifiedMode, setModeInfo_draining]

theorem deliverStep_tab_fields (s : DemoState) (r : RequestResult)
    (buf : List (Nat × RequestResult)) :
    (deliverStep s r buf KeyEvent.tab).isUserSpecifiedMode
        = !s.isUserSpecifiedMode ∧
    (deliverStep s r buf KeyEvent.tab).draining = true ∧
    (deliverStep s r buf KeyEvent.tab).finished = s.finished := by
  simp [deliverStep, setModeInfo_isUserSpecifiedMode, setModeInfo_finished]

theorem drainEndStep_fields (nireq : Nat) (s : DemoState) :
    (drainEndStep nireq s).emptyRequests = allSlots nireq s.isUserSpecifiedMode ∧
    (drainEndStep nireq s).inflight = s.inflight ∧
    (drainEndStep nireq s).isUserSpecifiedMode = s.isUserSpecifiedMode ∧
    (drainEndStep nireq s).draining = false ∧
    (drainEndStep nireq s).callbackException = s.callbackException ∧
    (drainEndStep nireq s).capOpen = s.capOpen ∧
    (drainEndStep nireq s).completedRequestResults = s.completedRequestResults ∧
    (drainEndStep nireq s).nextFrameId = s.nextFrameId ∧
    (drainEndStep nireq s).nextFrameIdToShow = s.nextFrameIdToShow ∧
    (drainEndStep nireq s).finished = s.finished ∧
    (drainEndStep nireq s).delivered = s.delivered := by
  simp [drainEndStep, setModeInfo_emptyRequests, setModeInfo_inflight,
    setModeInfo_isUserSpecifiedMode, setModeInfo_callbackException,
    setModeInfo_capOpen, setModeInfo_completed, setModeInfo_nextFrameId,
    setModeInfo_nextFrameIdToShow, setModeInfo_finished, setModeInfo_delivered]

/-! ### Facts about `allSlots` -/

theorem allSlots_nodup (nireq : Nat) (b : Bool) : (allSlots nireq b).Nodup := by
  cases b
  · simp [allSlots]
  · refine List.Nodup.map ?_ (List.nodup_range nireq)
    intro a b h
    injection h

theorem allSlots_pool (nireq : Nat) (b : Bool) :
    ∀ r ∈ allSlots nireq b, r.pool = b := by
  cases b <;> simp [allSlots]

theorem allSlots_length (nireq : Nat) :
    (allSlots nireq true).length = nireq ∧ (allSlots nireq false).length = 1 := by
  simp [allSlots]

end OdSsdAsync

namespace OdSsdAsync

/-- The Deliver branch leaves the free queue, the in-flight set and the
exception slot alone, so it preserves `SlotInv` (Tab only suspends into the
drain, making the drain-conditioned clauses vacuous). -/
theorem slotInv_deliverStep {nireq : Nat} {s : DemoState} (h : SlotInv nireq s)
    (r : RequestResult) (buf : List (Nat × RequestResult)) (k : KeyEvent) :
    SlotInv nireq (deliverStep s r buf k) := by
  obtain ⟨he, hi, hx, -, -, -, -, -⟩ := deliverStep_fields s r buf k
  cases k with
  | noKey =>
    obtain ⟨hm, hd, -⟩ := deliverStep_noKey_fields s r buf
    exact ⟨by rw [he, hi]; exact h.nodup,
           by rw [hd, he, hm]; exact h.freePool,
           by rw [hd, hx, he, hi, hm]; exact h.poolCount,
           by rw [hi]; exact h.flightPool⟩
  | esc =>
    obtain ⟨hm, hd, -⟩ := deliverStep_esc_fields s r buf
    exact ⟨by rw [he, hi]; exact h.nodup,
           by rw [hd, he, hm]; exact h.freePool,
           by rw [hd, hx, he, hi, hm]; exact h.poolCount,
           by rw [hi]; exact h.flightPool⟩
  | tab =>
    obtain ⟨hm, hd, -⟩ := deliverStep_tab_fields s r buf
    refine ⟨by rw [he, hi]; exact h.nodup, ?_, ?_,
            by rw [hi]; exact h.flightPool⟩
    · intro hdr
      rw [hd] at hdr
      exact absurd hdr (by simp)
    · intro hdr
      rw [hd] at hdr
      exact absurd hdr (by simp)

/-- Any enabled step preserves `SlotInv`. -/
theorem slotInv_step {nireq : Nat} {s s' : DemoState} {a : Act}
    (h : SlotInv nireq s) (hstep : step nireq s a = some s') :
    SlotInv nireq s' := by
  cases a with
  | control k ro =>
    obtain ⟨hfin, hdr, hs'⟩ := step_control_eq hstep
    subst hs'
    unfold controlStep
    split
    · exact ⟨h.nodup, h.freePool, h.poolCount, h.flightPool⟩
    · split
      · exact ⟨h.nodup, h.freePool, h.poolCount, h.flightPool⟩
      · split
        · next r buf heq => exact slotInv_deliverStep h r buf k
        · split
          · split
            · -- Admit: pop the front free request and submit it
              unfold admitStep
              rcases hemp : s.emptyRequests with _ | ⟨g, rest⟩
              · exact h
              · have hg : g.pool = s.isUserSpecifiedMode :=
                  h.freePool hdr g (by rw [hemp]; exact List.mem_cons_self g rest)
                have hrest : ∀ r' ∈ rest, r'.pool = s.isUserSpecifiedMode :=
                  fun r' hr' =>
                    h.freePool hdr r' (by rw [hemp]; exact List.mem_cons_of_mem g hr')
                have hnd := h.nodup
                rw [hemp] at hnd
                constructor
                · -- nodup
                  show (rest ++ (s.inflight ++
                      [({ req := g, frameId := s.nextFrameId,
                          frameMode := s.isUserSpecifiedMode,
                          startTime := s.clock } : InFlight)]).map
                        (fun f => f.req)).Nodup
                  have hmap : (s.inflight ++
                      [({ req := g, frameId := s.nextFrameId,
                          frameMode := s.isUserSpecifiedMode,
                          startTime := s.clock } : InFlight)]).map (fun f => f.req)
                      = s.inflight.map (fun f => f.req) ++ [g] := by simp
                  rw [hmap, ← List.append_assoc]
                  have hperm : List.Perm
                      ((rest ++ s.inflight.map (fun f => f.req)) ++ [g])
                      (g :: (rest ++ s.inflight.map (fun f => f.req))) :=
                    List.perm_append_singleton g _
                  exact hperm.symm.nodup (by simpa using hnd)
                · -- freePool
                  intro _ r' hr'
                  exact hrest r' hr'
                · -- poolCount
                  intro _ hx'
                  have hp := h.poolCount hdr hx'
                  rw [hemp] at hp
                  show rest.length + ((s.inflight ++
                      [({ req := g, frameId := s.nextFrameId,
                          frameMode := s.isUserSpecifiedMode,
                          startTime := s.clock } : InFlight)]).filter
                        (fun f => f.req.pool == s.isUserSpecifiedMode)).length
                      = (allSlots nireq s.isUserSpecifiedMode).length
                  rw [List.filter_append]
                  have hpg :
                      (({ req := g, frameId := s.nextFrameId,
                          frameMode := s.isUserSpecifiedMode,
                          startTime := s.clock } : InFlight).req.pool
                        == s.isUserSpecifiedMode) = true := by
                    simp [hg]
                  simp only [List.filter_cons, hpg, List.filter_nil, if_true]
                  simp only [List.length_append, List.length_cons, List.length_nil]
                  simp only [List.length_cons] at hp
                  omega
                · -- flightPool
                  show ∀ f' ∈ s.inflight ++
                      [({ req := g, frameId := s.nextFrameId,
                          frameMode := s.isUserSpecifiedMode,
                          startTime := s.clock } : InFlight)],
                      f'.req.pool = f'.frameMode
                  intro f' hf'
                  rcases List.mem_append.mp hf' with hold | hnew
                  · exact h.flightPool f' hold
                  · rw [List.mem_singleton.mp hnew]
                    exact hg
            · exact ⟨h.nodup, h.freePool, h.poolCount, h.flightPool⟩
          · exact ⟨h.nodup, h.freePool, h.poolCount, h.flightPool⟩
  | fire i =>
    obtain ⟨hfin, f, hf, hs'⟩ := step_fire_eq hstep
    subst hs'
    have hperm := perm_cons_eraseIdx s.inflight i f hf
    have hmem : f ∈ s.inflight := hperm.symm.subset (List.mem_cons_self f _)
    have hpermMap : List.Perm (s.inflight.map (fun f => f.req))
        (f.req :: (s.inflight.eraseIdx i).map (fun f => f.req)) := by
      simpa using hperm.map (fun f => f.req)
    cases hsm : f.frameMode == s.isUserSpecifiedMode with
    | true =>
      have hfm : f.frameMode = s.isUserSpecifiedMode := by
        exact beq_iff_eq.mp hsm
      have hfp : f.req.pool = s.isUserSpecifiedMode :=
        (h.flightPool f hmem).trans hfm
      constructor
      · show ((if (f.frameMode == s.isUserSpecifiedMode) = true
            then s.emptyRequests ++ [f.req] else s.emptyRequests) ++
            (s.inflight.eraseIdx i).map (fun f => f.req)).Nodup
        rw [if_pos hsm]
        have hstep1 : List.Perm
            (s.emptyRequests ++ s.inflight.map (fun f => f.req))
            (s.emptyRequests ++
              (f.req :: (s.inflight.eraseIdx i).map (fun f => f.req))) :=
          hpermMap.append_left s.emptyRequests
        have hstep2 :
            s.emptyRequests ++
              (f.req :: (s.inflight.eraseIdx i).map (fun f => f.req))
            = (s.emptyRequests ++ [f.req]) ++
              (s.inflight.eraseIdx i).map (fun f => f.req) := by
          simp
        exact (hstep2 ▸ hstep1).nodup h.nodup
      · intro hdr r' hr'
        show r'.pool = s.isUserSpecifiedMode
        replace hr' : r' ∈ (if (f.frameMode == s.isUserSpecifiedMode) = true
            then s.emptyRequests ++ [f.req] else s.emptyRequests) := hr'
        rw [if_pos hsm] at hr'
        rcases List.mem_append.mp hr' with hold | hnew
        · exact h.freePool hdr r' hold
        · rw [List.mem_singleton.mp hnew]
          exact hfp
      · intro hdr hx'
        have hp := h.poolCount hdr hx'
        show (if (f.frameMode == s.isUserSpecifiedMode) = true
            then s.emptyRequests ++ [f.req] else s.emptyRequests).length +
            ((s.inflight.eraseIdx i).filter
              (fun f => f.req.pool == s.isUserSpecifiedMode)).length
            = (allSlots nireq s.isUserSpecifiedMode).length
        rw [if_pos hsm]
        have hfl : List.Perm
            (s.inflight.filter (fun f => f.req.pool == s.isUserSpecifiedMode))
            (f :: (s.inflight.eraseIdx i).filter
              (fun f => f.req.pool == s.isUserSpecifiedMode)) := by
          have := hperm.filter (fun f => f.req.pool == s.isUserSpecifiedMode)
          simpa [List.filter_cons, hfp] using this
        have hlen := hfl.length_eq
        simp only [List.length_cons] at hlen
        simp only [List.length_append, List.length_cons, List.length_nil]
        omega
      · intro f' hf'
        exact h.flightPool f' ((List.eraseIdx_sublist s.inflight i).subset hf')
    | false =>
      have hfp : f.req.pool ≠ s.isUserSpecifiedMode := by
        have hfm : f.frameMode ≠ s.isUserSpecifiedMode := by
          intro hco
          rw [hco] at hsm
          simp at hsm
        exact fun hco => hfm ((h.flightPool f hmem).symm.trans hco)
      constructor
      · show ((if (f.frameMode == s.isUserSpecifiedMode) = true
            then s.emptyRequests ++ [f.req] else s.emptyRequests) ++
            (s.inflight.eraseIdx i).map (fun f => f.req)).Nodup
        rw [if_neg (by simp [hsm])]
        have hsub : List.Sublist
            (s.emptyRequests ++ (s.inflight.eraseIdx i).map (fun f => f.req))
            (s.emptyRequests ++ s.inflight.map (fun f => f.req)) :=
          List.Sublist.append_left
            ((List.eraseIdx_sublist s.inflight i).map (fun f => f.req))
            s.emptyRequests
        exact h.nodup.sublist hsub
      · intro hdr r' hr'
        show r'.pool = s.isUserSpecifiedMode
        replace hr' : r' ∈ (if (f.frameMode == s.isUserSpecifiedMode) = true
            then s.emptyRequests ++ [f.req] else s.emptyRequests) := hr'
        rw [if_neg (by simp [hsm])] at hr'
        exact h.freePool hdr r' hr'
      · intro hdr hx'
        have hp := h.poolCount hdr hx'
        show (if (f.frameMode == s.isUserSpecifiedMode) = true
            then s.emptyRequests ++ [f.req] else s.emptyRequests).length +
            ((s.inflight.eraseIdx i).filter
              (fun f => f.req.pool == s.isUserSpecifiedMode)).length
            = (allSlots nireq s.isUserSpecifiedMode).length
        rw [if_neg (by simp [hsm])]
        have hfl : List.Perm
            (s.inflight.filter (fun f => f.req.pool == s.isUserSpecifiedMode))
            ((s.inflight.eraseIdx i).filter
              (fun f => f.req.pool == s.isUserSpecifiedMode)) := by
          have := hperm.filter (fun f => f.req.pool == s.isUserSpecifiedMode)
          simpa [List.filter_cons, beq_eq_false_iff_ne.mpr hfp] using this
        have hlen := hfl.length_eq
        omega
      · intro f' hf'
        exact h.flightPool f' ((List.eraseIdx_sublist s.inflight i).subset hf')
  | fireErr i =>
    obtain ⟨hfin, f, hf, hs'⟩ := step_fireErr_eq hstep
    subst hs'
    constructor
    · have hsub : List.Sublist
          (s.emptyRequests ++ (s.inflight.eraseIdx i).map (fun f => f.req))
          (s.emptyRequests ++ s.inflight.map (fun f => f.req)) :=
        List.Sublist.append_left
          ((List.eraseIdx_sublist s.inflight i).map (fun f => f.req))
          s.emptyRequests
      exact h.nodup.sublist hsub
    · intro hdr r' hr'
      exact h.freePool hdr r' hr'
    · intro hdr hx'
      exfalso
      revert hx'
      show ¬ (fireErrStep s f i).callbackException = none
      unfold fireErrStep
      rcases s.callbackException with _ | e <;> simp
    · intro f' hf'
      exact h.flightPool f' ((List.eraseIdx_sublist s.inflight i).subset hf')
  | drainEnd =>
    obtain ⟨hdrain, hpool, hs'⟩ := step_drainEnd_eq hstep
    subst hs'
    obtain ⟨he, hi, hm, hd, hx, -, -, -, -, -, -⟩ := drainEndStep_fields nireq s
    constructor
    · rw [he, hi]
      refine List.Nodup.append (allSlots_nodup nireq s.isUserSpecifiedMode)
        (h.nodup.of_append_right) ?_
      intro a ha hb
      obtain ⟨f, hfmem, hfr⟩ := List.mem_map.mp hb
      have h1 := allSlots_pool nireq s.isUserSpecifiedMode a ha
      have h2 := hpool f hfmem
      rw [← hfr] at h1
      exact h2 h1
    · intro _ r' hr'
      rw [he] at hr'
      rw [hm]
      exact allSlots_pool nireq s.isUserSpecifiedMode r' hr'
    · intro _ _
      rw [he, hi, hm]
      have hnil : s.inflight.filter
          (fun f => f.req.pool == s.isUserSpecifiedMode) = [] := by
        rw [List.filter_eq_nil_iff]
        intro f hfmem
        simp [hpool f hfmem]
      rw [hnil]
      simp
    · intro f' hf'
      rw [hi] at hf'
      exact h.flightPool f' hf'

end OdSsdAsync

namespace OdSsdAsync

/-- The initial state satisfies `SlotInv`. -/
theorem slotInv_init (nireq : Nat) : SlotInv nireq (initState nireq) := by
  constructor
  · simpa [initState] using allSlots_nodup nireq true
  · intro _ r hr
    exact allSlots_pool nireq true r hr
  · intro _ _
    simp [initState]
  · intro f hf
    simp [initState] at hf

/-- `SlotInv` holds along any run. -/
theorem slotInv_run (nireq : Nat) :
    ∀ (tr : List Act) (s t : DemoState), SlotInv nireq s →
      run nireq s tr = some t → SlotInv nireq t := by
  intro tr
  induction tr with
  | nil =>
    intro s t h hr
    simp [run] at hr
    exact hr ▸ h
  | cons a rest ih =>
    intro s t h hr
    simp only [run] at hr
    rcases hstep : step nireq s a with _ | s1
    · rw [hstep] at hr; simp at hr
    · rw [hstep] at hr
      exact ih s1 t (slotInv_step h hstep) hr

/-- A control iteration either leaves the in-flight set alone or appends one
unit occupying the front request of the free queue (the Admit branch,
lines 516-517 and 563). -/
theorem controlStep_inflight (nireq : Nat) (s : DemoState) (k : KeyEvent)
    (ro : Bool) :
    (controlStep nireq s k ro).inflight = s.inflight ∨
    ∃ g rest, s.emptyRequests = g :: rest ∧
      (controlStep nireq s k ro).inflight = s.inflight ++
        [{ req := g, frameId := s.nextFrameId,
           frameMode := s.isUserSpecifiedMode, startTime := s.clock }] := by
  unfold controlStep
  split
  · left; rfl
  · split
    · left; rfl
    · split
      · next r buf heq => left; exact (deliverStep_fields s r buf k).2.1
      · split
        · split
          · unfold admitStep
            rcases hemp : s.emptyRequests with _ | ⟨g, rest⟩
            · left; rfl
            · right; exact ⟨g, rest, rfl, rfl⟩
          · left; rfl
        · left; rfl

end OdSsdAsync

namespace OdSsdAsync

/-- C8: in every reachable state no request is both free and in flight (and
none is listed twice in the free queue), and whatever step happens next,
every newly in-flight unit occupies a request no in-flight unit was using —
the Dispatcher admits only from the free queue, a request leaves it at
submission and returns only after its callback (or a drain) has run, so no
request ever receives a second submission while busy and `StartAsync` never
hits a busy request (the `AlreadyBusy` condition). -/
theorem c8_no_double_submission :
    ∀ (nireq : Nat) (tr : List Act) (s : DemoState) (a : Act) (s' : DemoState),
      run nireq (initState nireq) tr = some s →
      step nireq s a = some s' →
      (s.emptyRequests ++ s.inflight.map (fun f => f.req)).Nodup ∧
      noDoubleSubmission s s' = true := by
  intro nireq tr s a s' hrun hstep
  have hInv : SlotInv nireq s :=
    slotInv_run nireq tr (initState nireq) s (slotInv_init nireq) hrun
  refine ⟨hInv.nodup, ?_⟩
  have hdisj := List.disjoint_of_nodup_append hInv.nodup
  have hpv : ∀ f' ∈ s'.inflight, f' ∈ s.inflight ∨
      ∀ f ∈ s.inflight, f'.req ≠ f.req := by
    cases a with
    | control k ro =>
      obtain ⟨-, -, hs'⟩ := step_control_eq hstep
      subst hs'
      rcases controlStep_inflight nireq s k ro with heq | ⟨g, rest, hemp, heq⟩
      · rw [heq]; intro f' hf'; exact Or.inl hf'
      · rw [heq]
        intro f' hf'
        rcases List.mem_append.mp hf' with hold | hnew
        · exact Or.inl hold
        · right
          intro f hfmem hco
          have hgmem : g ∈ s.emptyRequests := by
            rw [hemp]; exact List.mem_cons_self g rest
          have : f'.req = g := by rw [List.mem_singleton.mp hnew]
          rw [this] at hco
          exact hdisj hgmem (hco ▸ List.mem_map_of_mem (fun f => f.req) hfmem)
    | fire i =>
      obtain ⟨-, f, hf, hs'⟩ := step_fire_eq hstep
      subst hs'
      intro f' hf'
      exact Or.inl ((List.eraseIdx_sublist s.inflight i).subset hf')
    | fireErr i =>
      obtain ⟨-, f, hf, hs'⟩ := step_fireErr_eq hstep
      subst hs'
      intro f' hf'
      exact Or.inl ((List.eraseIdx_sublist s.inflight i).subset hf')
    | drainEnd =>
      obtain ⟨-, -, hs'⟩ := step_drainEnd_eq hstep
      subst hs'
      intro f' hf'
      rw [(drainEndStep_fields nireq s).2.1] at hf'
      exact Or.inl hf'
  simp only [noDoubleSubmission, List.all_eq_true, Bool.or_eq_true,
    decide_eq_true_eq]
  intro f' hf'
  rcases hpv f' hf' with h1 | h2
  · exact Or.inl h1
  · exact Or.inr (fun f hf => h2 f hf)

/-- Witness for `c8_no_double_submission`: the admission of frame 1 from the
state reached by `[admit 0, admit 1, fire 0, deliver+Tab, drainEnd]` — the
min-latency request is submitted while the user-specified unit 1 is still in
flight, and it is indeed fresh. -/
theorem c8_no_double_submission_witness :
    (((run 2 (initState 2) tabWhileInFlightTrace).getD
        (initState 0)).emptyRequests ++
      ((run 2 (initState 2) tabWhileInFlightTrace).getD
        (initState 0)).inflight.map (fun f => f.req)).Nodup ∧
    noDoubleSubmission
      ((run 2 (initState 2) tabWhileInFlightTrace).getD (initState 0))
      ((step 2 ((run 2 (initState 2) tabWhileInFlightTrace).getD (initState 0))
          (Act.control KeyEvent.noKey true)).getD (initState 0)) = true :=
  c8_no_double_submission 2 tabWhileInFlightTrace
    ((run 2 (initState 2) tabWhileInFlightTrace).getD (initState 0))
    (Act.control KeyEvent.noKey true)
    ((step 2 ((run 2 (initState 2) tabWhileInFlightTrace).getD (initState 0))
        (Act.control KeyEvent.noKey true)).getD (initState 0))
    rfl rfl

end OdSsdAsync

namespace OdSsdAsync

/-- Propositional reading of the while-condition of lines 355-359. -/
theorem loopCond_eq (nireq : Nat) (s : DemoState) :
    loopCond nireq s = true ↔
      (s.callbackException = none ∧
       (s.capOpen = true ∨ s.completedRequestResults ≠ [] ∨
        ((s.isUserSpecifiedMode = true ∧ s.emptyRequests.length < nireq) ∨
         (s.isUserSpecifiedMode = false ∧ s.emptyRequests.length = 0)))) := by
  unfold loopCond
  simp only [Bool.and_eq_true, Bool.or_eq_true, decide_eq_true_eq,
    Option.isNone_iff_eq_none, Bool.not_eq_true', List.isEmpty_eq_false]
  tauto

/-- Bool form: no in-flight unit of pool `b` remains exactly when the filter
for pool `b` is empty. -/
theorem all_inactive_iff_filter_nil (s : DemoState) (b : Bool) :
    (s.inflight.all (fun f => !(f.req.pool == b)) = true) ↔
    (s.inflight.filter (fun f => f.req.pool == b)).length = 0 := by
  rw [List.length_eq_zero, List.filter_eq_nil_iff, List.all_eq_true]
  constructor
  · intro hh f hf
    have h1 := hh f hf
    simp only [Bool.not_eq_true'] at h1
    simp [h1]
  · intro hh f hf
    have h1 := hh f hf
    simp only [Bool.not_eq_true']
    simpa using h1

/-- In a reachable quiescent state (not draining, no exception), the
while-condition's free-queue clause holds exactly when some unit of the
active pool is still in flight. -/
theorem active_unit_iff {nireq : Nat} {s : DemoState} (hInv : SlotInv nireq s)
    (hdr : s.draining = false) (hx : s.callbackException = none) :
    ((s.isUserSpecifiedMode = true ∧ s.emptyRequests.length < nireq) ∨
     (s.isUserSpecifiedMode = false ∧ s.emptyRequests.length = 0)) ↔
    ¬ (s.inflight.all (fun f => !(f.req.pool == s.isUserSpecifiedMode))
        = true) := by
  have hp := hInv.poolCount hdr hx
  rw [all_inactive_iff_filter_nil s s.isUserSpecifiedMode]
  cases hm : s.isUserSpecifiedMode with
  | true =>
    rw [hm] at hp
    rw [(allSlots_length nireq).1] at hp
    have htriv : (true = true ∧ s.emptyRequests.length < nireq ∨
        true = false ∧ s.emptyRequests.length = 0) ↔
        s.emptyRequests.length < nireq := by simp
    rw [htriv]
    omega
  | false =>
    rw [hm] at hp
    rw [(allSlots_length nireq).2] at hp
    have htriv : (false = true ∧ s.emptyRequests.length < nireq ∨
        false = false ∧ s.emptyRequests.length = 0) ↔
        s.emptyRequests.length = 0 := by simp
    rw [htriv]
    omega

end OdSsdAsync

namespace OdSsdAsync

/-- When the while-condition holds and no Esc was pressed, the iteration
does not end the loop. -/
theorem controlStep_finished_of_cond {nireq : Nat} {s : DemoState}
    {k : KeyEvent} {ro : Bool} (hc : loopCond nireq s = true)
    (hk : (k == KeyEvent.esc) = false) :
    (controlStep nireq s k ro).finished = s.finished := by
  have hexcN : s.callbackException.isNone = true := by
    unfold loopCond at hc
    simp only [Bool.and_eq_true] at hc
    exact hc.2
  have hexcS : s.callbackException.isSome = false := by
    rcases hx : s.callbackException with _ | e
    · rfl
    · rw [hx] at hexcN; simp at hexcN
  unfold controlStep
  rw [if_neg (by simp [hc]), if_neg (by simp [hexcS])]
  split
  · next r buf heq =>
    cases k with
    | noKey => exact (deliverStep_noKey_fields s r buf).2.2
    | esc => simp at hk
    | tab => exact (deliverStep_tab_fields s r buf).2.2
  · split
    · split
      · unfold admitStep
        split <;> rfl
      · rfl
    · rfl

/-- C7 counterexample: in the run `abandonInFlightTrace`, the loop exits
normally (`finished = some 0`) while the user-specified unit of frame 1 is
still in flight and undelivered (`nextFrameIdToShow = 1 < 2 = nextFrameId`):
after the Tab switch, the cross-mode in-flight unit is invisible to the
while-condition, so the loop terminates with a unit in flight and its
result never reaches the consumer. -/
theorem c7_loop_exit_abandons_inflight_counterexample :
    (run 2 (initState 2) abandonInFlightTrace).map (fun t =>
        (t.finished, t.inflight.map (fun f => f.frameId),
         t.nextFrameIdToShow, t.nextFrameId))
      = some (some 0, [1], 1, 2) := by
  rfl

/-- C7 (amended): a control iteration that does not deliver with Esc ends
the loop exactly when a callback exception is stored, or the source is
exhausted, the reorder buffer is empty and no unit of the ACTIVE pool is in
flight.  In-flight units of the inactive pool do not keep the loop alive
(hence the abandonment counterexample); conversely, with the source
exhausted and a unit of the active pool still in flight, the loop
continues until that unit's result is delivered. -/
theorem c7_loop_exit_condition :
    ∀ (nireq : Nat) (tr : List Act) (s s' : DemoState) (k : KeyEvent)
      (ro : Bool),
      run nireq (initState nireq) tr = some s →
      step nireq s (Act.control k ro) = some s' →
      (k == KeyEvent.esc) = false →
      (s'.finished.isSome = true ↔
        (s.callbackException.isSome = true ∨
         (s.capOpen = false ∧ s.completedRequestResults = [] ∧
          s.inflight.all (fun f => !(f.req.pool == s.isUserSpecifiedMode))
            = true))) := by
  intro nireq tr s s' k ro hrun hstep hk
  obtain ⟨hfin, hdr, hs'⟩ := step_control_eq hstep
  have hInv : SlotInv nireq s :=
    slotInv_run nireq tr (initState nireq) s (slotInv_init nireq) hrun
  subst hs'
  cases hc : loopCond nireq s with
  | false =>
    have hfin' : (controlStep nireq s k ro).finished = some 0 := by
      unfold controlStep
      rw [if_pos (by simp [hc])]
    rw [hfin']
    simp only [Option.isSome_some, true_iff]
    rcases hx : s.callbackException with _ | e
    · right
      have hl : ¬ (s.callbackException = none ∧
          (s.capOpen = true ∨ s.completedRequestResults ≠ [] ∨
           ((s.isUserSpecifiedMode = true ∧ s.emptyRequests.length < nireq) ∨
            (s.isUserSpecifiedMode = false ∧ s.emptyRequests.length = 0)))) := by
        intro hcontra
        have := (loopCond_eq nireq s).mpr hcontra
        rw [hc] at this
        exact Bool.false_ne_true this
      have hnd : ¬ (s.capOpen = true ∨ s.completedRequestResults ≠ [] ∨
          ((s.isUserSpecifiedMode = true ∧ s.emptyRequests.length < nireq) ∨
           (s.isUserSpecifiedMode = false ∧ s.emptyRequests.length = 0))) :=
        fun hdis => hl ⟨hx, hdis⟩
      push_neg at hnd
      obtain ⟨h1, h2, h3⟩ := hnd
      refine ⟨by simpa using h1, h2, ?_⟩
      have h3' : ¬ ((s.isUserSpecifiedMode = true ∧
          s.emptyRequests.length < nireq) ∨
          (s.isUserSpecifiedMode = false ∧ s.emptyRequests.length = 0)) := by
        rintro (⟨ha, hb⟩ | ⟨ha, hb⟩)
        · have := h3.1 ha; omega
        · exact h3.2 ha hb
      exact not_not.mp ((active_unit_iff hInv hdr hx).not.mp h3')
    · exact Or.inl rfl
  | true =>
    have hfin' : (controlStep nireq s k ro).finished = s.finished :=
      controlStep_finished_of_cond hc hk
    rw [hfin', hfin]
    refine iff_of_false (by simp) ?_
    intro hr
    obtain ⟨hx, hdis⟩ := (loopCond_eq nireq s).mp hc
    rcases hr with h1 | ⟨hcap, hbuf, hall⟩
    · rw [hx] at h1; simp at h1
    · rcases hdis with hdis1 | hdis2 | hdis3
      · rw [hcap] at hdis1; exact Bool.false_ne_true hdis1
      · exact hdis2 hbuf
      · exact (active_unit_iff hInv hdr hx).mp hdis3 hall

/-- Witness for `c7_loop_exit_condition`: the final iteration of the
abandonment run — both sides of the equivalence are true there (the source
is exhausted, the buffer empty, the min-latency pool idle), although the
user-specified unit of frame 1 is still in flight. -/
theorem c7_loop_exit_condition_witness :
    abandonFinalState.finished.isSome = true ↔
      (abandonPrefixState.callbackException.isSome = true ∨
       (abandonPrefixState.capOpen = false ∧
        abandonPrefixState.completedRequestResults = [] ∧
        abandonPrefixState.inflight.all
          (fun f => !(f.req.pool == abandonPrefixState.isUserSpecifiedMode))
          = true)) :=
  c7_loop_exit_condition 2
    (tabWhileInFlightTrace ++ [Act.control KeyEvent.noKey false])
    abandonPrefixState abandonFinalState KeyEvent.noKey true rfl rfl rfl

end OdSsdAsync

namespace OdSsdAsync

/-- `range'` grown by one at the top. -/
theorem range'_snoc (s n : Nat) :
    List.range' s (n + 1) = List.range' s n ++ [s + n] := by
  have h : List.range' s (n + 1) 1 = List.range' s n 1 ++ [s + 1 * n] :=
    List.range'_concat s n
  simpa using h

/-- The initial state satisfies `OrderInv`. -/
theorem orderInv_init (nireq : Nat) : OrderInv nireq (initState nireq) := by
  refine ⟨rfl, rfl, rfl, rfl, ?_, ?_, ?_, Nat.le_refl 0, Or.inl rfl⟩
  · simp [initState, allSlots]
  · intro f hf
    simp [initState] at hf
  · simp [initState]

/-- Benign actions preserve `OrderInv`. -/
theorem orderInv_step {nireq : Nat} {s s' : DemoState} {a : Act}
    (hb : benignAct a = true) (h : OrderInv nireq s)
    (hstep : step nireq s a = some s') : OrderInv nireq s' := by
  cases a with
  | control k ro =>
    have hkey : k = KeyEvent.noKey := by
      cases k
      · rfl
      · simp [benignAct] at hb
      · simp [benignAct] at hb
    subst hkey
    obtain ⟨hfin, hdr, hs'⟩ := step_control_eq hstep
    subst hs'
    unfold controlStep
    split
    · -- the loop exits: everything admitted has been delivered
      next hq =>
      have hcF : loopCond nireq s = false := by
        cases hcc : loopCond nireq s
        · rfl
        · rw [hcc] at hq; simp at hq
      have hdisj : ¬ (s.capOpen = true ∨ s.completedRequestResults ≠ [] ∨
          ((s.isUserSpecifiedMode = true ∧ s.emptyRequests.length < nireq) ∨
           (s.isUserSpecifiedMode = false ∧ s.emptyRequests.length = 0))) := by
        intro hdis
        have := (loopCond_eq nireq s).mpr ⟨h.exc, hdis⟩
        rw [hcF] at this
        exact Bool.false_ne_true this
      push_neg at hdisj
      obtain ⟨-, hbufnil, himpl⟩ := hdisj
      have hlen : nireq ≤ s.emptyRequests.length := himpl.1 h.mode
      have hinfl : s.inflight = [] := by
        have := h.slots
        have hz : s.inflight.length = 0 := by omega
        exact List.length_eq_zero.mp hz
      have hids := h.ids
      rw [hbufnil, hinfl] at hids
      have hlen2 := hids.length_eq
      simp [List.length_range'] at hlen2
      have hcn : s.nextFrameIdToShow = s.nextFrameId := by
        have := h.cursorLe
        omega
      exact ⟨h.mode, h.drain, h.exc, h.deliv, h.slots, h.flightMode, h.ids,
        h.cursorLe, Or.inr hcn⟩
    · split
      · -- dead rethrow branch
        next h2 =>
        rw [h.exc] at h2
        simp at h2
      · split
        · -- Deliver
          next r buf heq =>
          obtain ⟨hfind, hbuf⟩ := popIfNext_eq_some heq
          obtain ⟨he, hi, hx, hcap, hnf, hcb, hcs, hdel⟩ :=
            deliverStep_fields s r buf KeyEvent.noKey
          obtain ⟨hm2, hd2, hf2⟩ := deliverStep_noKey_fields s r buf
          have hkeys : s.nextFrameIdToShow ∈
              s.completedRequestResults.map Prod.fst :=
            (mapFind_isSome_iff _ _).mp (by simp [hfind])
          have hcr : s.nextFrameIdToShow ∈ List.range' s.nextFrameIdToShow
              (s.nextFrameId - s.nextFrameIdToShow) :=
            h.ids.subset (List.mem_append_left _ hkeys)
          rcases hd : s.nextFrameId - s.nextFrameIdToShow with _ | m
          · rw [hd] at hcr; simp at hcr
          · have hperm2 : List.Perm
                (s.completedRequestResults.map Prod.fst)
                (s.nextFrameIdToShow ::
                  (mapErase s.nextFrameIdToShow
                    s.completedRequestResults).map Prod.fst) :=
              mapErase_perm _ r _ hfind
            have hchain : List.Perm
                (s.nextFrameIdToShow ::
                  ((mapErase s.nextFrameIdToShow
                      s.completedRequestResults).map Prod.fst ++
                    s.inflight.map (fun f => f.frameId)))
                (s.nextFrameIdToShow ::
                  List.range' (s.nextFrameIdToShow + 1) m) := by
              have ha := (hperm2.append_right
                (s.inflight.map (fun f => f.frameId))).symm
              have hb2 := h.ids
              rw [hd] at hb2
              have hc2 := ha.trans hb2
              rw [List.range'_succ] at hc2
              exact hc2
            have hids' := hchain.cons_inv
            have hm3 : s.nextFrameId - (s.nextFrameIdToShow + 1) = m := by
              omega
            refine ⟨?_, ?_, ?_, ?_, ?_, ?_, ?_, ?_, ?_⟩
            · rw [hm2]; exact h.mode
            · rw [hd2]; exact h.drain
            · rw [hx]; exact h.exc
            · rw [hdel, hcs, h.deliv, List.range_succ]
            · rw [he, hi]; exact h.slots
            · rw [hi]; exact h.flightMode
            · rw [hcb, hi, hcs, hnf, hbuf, hm3]
              exact hids'
            · rw [hcs, hnf]
              omega
            · rw [hf2, hfin]
              exact Or.inl rfl
        · split
          · split
            · -- Admit
              unfold admitStep
              rcases hemp : s.emptyRequests with _ | ⟨g, rest⟩
              · exact h
              · have hslots := h.slots
                rw [hemp] at hslots
                refine ⟨h.mode, h.drain, h.exc, h.deliv, ?_, ?_, ?_, ?_, ?_⟩
                · show rest.length + (s.inflight ++
                      [({ req := g, frameId := s.nextFrameId,
                          frameMode := s.isUserSpecifiedMode,
                          startTime := s.clock } : InFlight)]).length = nireq
                  simp only [List.length_append, List.length_cons,
                    List.length_nil]
                  simp only [List.length_cons] at hslots
                  omega
                · show ∀ f ∈ s.inflight ++
                      [({ req := g, frameId := s.nextFrameId,
                          frameMode := s.isUserSpecifiedMode,
                          startTime := s.clock } : InFlight)],
                      f.frameMode = true
                  intro f hf
                  rcases List.mem_append.mp hf with hold | hnew
                  · exact h.flightMode f hold
                  · rw [List.mem_singleton.mp hnew]
                    exact h.mode
                · show List.Perm
                    (s.completedRequestResults.map Prod.fst ++
                      ((s.inflight ++
                        [({ req := g, frameId := s.nextFrameId,
                            frameMode := s.isUserSpecifiedMode,
                            startTime := s.clock } : InFlight)]).map
                          (fun f => f.frameId)))
                    (List.range' s.nextFrameIdToShow
                      (s.nextFrameId + 1 - s.nextFrameIdToShow))
                  have hm4 : s.nextFrameId + 1 - s.nextFrameIdToShow
                      = (s.nextFrameId - s.nextFrameIdToShow) + 1 := by
                    have := h.cursorLe
                    omega
                  rw [hm4, range'_snoc]
                  have hm5 : s.nextFrameIdToShow +
                      (s.nextFrameId - s.nextFrameIdToShow) = s.nextFrameId := by
                    have := h.cursorLe
                    omega
                  rw [hm5]
                  have hmap : (s.inflight ++
                      [({ req := g, frameId := s.nextFrameId,
                          frameMode := s.isUserSpecifiedMode,
                          startTime := s.clock } : InFlight)]).map
                        (fun f => f.frameId)
                      = s.inflight.map (fun f => f.frameId) ++
                        [s.nextFrameId] := by
                    simp
                  rw [hmap, ← List.append_assoc]
                  exact h.ids.append_right [s.nextFrameId]
                · show s.nextFrameIdToShow ≤ s.nextFrameId + 1
                  have := h.cursorLe
                  omega
                · exact Or.inl hfin
            · -- source exhausted
              exact ⟨h.mode, h.drain, h.exc, h.deliv, h.slots, h.flightMode,
                h.ids, h.cursorLe, Or.inl hfin⟩
          · -- Wait
            exact ⟨h.mode, h.drain, h.exc, h.deliv, h.slots, h.flightMode,
              h.ids, h.cursorLe, Or.inl hfin⟩
  | fire i =>
    obtain ⟨hfin, f, hf, hs'⟩ := step_fire_eq hstep
    subst hs'
    have hperm := perm_cons_eraseIdx s.inflight i f hf
    have hmem : f ∈ s.inflight := hperm.symm.subset (List.mem_cons_self f _)
    have hfm : f.frameMode = true := h.flightMode f hmem
    have hsame : (f.frameMode == s.isUserSpecifiedMode) = true := by
      rw [hfm, h.mode]
      rfl
    have hfid : f.frameId ∈ s.inflight.map (fun f => f.frameId) :=
      List.mem_map_of_mem (fun f => f.frameId) hmem
    have hconcatNodup : (s.completedRequestResults.map Prod.fst ++
        s.inflight.map (fun f => f.frameId)).Nodup :=
      h.ids.symm.nodup (List.nodup_range' _ _)
    have habsent : mapFind f.frameId s.completedRequestResults = none := by
      rw [mapFind_eq_none_iff]
      intro hin
      exact List.disjoint_of_nodup_append hconcatNodup hin hfid
    have hkeysPost : (mapInsert f.frameId
        { startTime := f.startTime,
          isSameMode := f.frameMode == s.isUserSpecifiedMode }
        s.completedRequestResults).map Prod.fst
        = s.completedRequestResults.map Prod.fst ++ [f.frameId] := by
      rw [mapInsert_of_absent _ _ _ habsent]
      simp
    refine ⟨h.mode, h.drain, h.exc, h.deliv, ?_, ?_, ?_, h.cursorLe,
      Or.inl hfin⟩
    · show (if (f.frameMode == s.isUserSpecifiedMode) = true
          then s.emptyRequests ++ [f.req] else s.emptyRequests).length +
          (s.inflight.eraseIdx i).length = nireq
      rw [if_pos hsame]
      have hl := hperm.length_eq
      simp only [List.length_cons] at hl
      have hs2 := h.slots
      simp only [List.length_append, List.length_cons, List.length_nil]
      omega
    · intro f' hf'
      exact h.flightMode f' ((List.eraseIdx_sublist s.inflight i).subset hf')
    · show List.Perm
        ((mapInsert f.frameId
          { startTime := f.startTime,
            isSameMode := f.frameMode == s.isUserSpecifiedMode }
          s.completedRequestResults).map Prod.fst ++
          (s.inflight.eraseIdx i).map (fun f => f.frameId))
        (List.range' s.nextFrameIdToShow
          (s.nextFrameId - s.nextFrameIdToShow))
      rw [hkeysPost, List.append_assoc]
      have hflight : List.Perm
          (f.frameId :: (s.inflight.eraseIdx i).map (fun f => f.frameId))
          (s.inflight.map (fun f => f.frameId)) := by
        have := hperm.map (fun f => f.frameId)
        simpa using this.symm
      have hstep1 : List.Perm
          (s.completedRequestResults.map Prod.fst ++
            ([f.frameId] ++ (s.inflight.eraseIdx i).map (fun f => f.frameId)))
          (s.completedRequestResults.map Prod.fst ++
            s.inflight.map (fun f => f.frameId)) :=
        hflight.append_left (s.completedRequestResults.map Prod.fst)
      exact hstep1.trans h.ids
  | fireErr i =>
    simp [benignAct] at hb
  | drainEnd =>
    simp [benignAct] at hb

/-- `OrderInv` holds along any benign run. -/
theorem orderInv_run (nireq : Nat) :
    ∀ (tr : List Act) (s t : DemoState), OrderInv nireq s →
      tr.all benignAct = true → run nireq s tr = some t → OrderInv nireq t := by
  intro tr
  induction tr with
  | nil =>
    intro s t h hben hr
    simp [run] at hr
    exact hr ▸ h
  | cons a rest ih =>
    intro s t h hben hr
    simp only [List.all_cons, Bool.and_eq_true] at hben
    simp only [run] at hr
    rcases hstep : step nireq s a with _ | s1
    · rw [hstep] at hr; simp at hr
    · rw [hstep] at hr
      exact ih s1 t (orderInv_step hben.1 h hstep) hben.2 hr

/-- C1: along every run driven only by admissions, normal completions in an
arbitrary (adversarial) order, delivery iterations and source exhaustion —
no Esc/Tab key, no callback failure — the ids handed to the consumer are at
every moment exactly `0, 1, ..., nextFrameIdToShow - 1` in strictly
increasing order (each delivered only when present in the reorder buffer at
the cursor, which advances by one exactly then, so no id is skipped or
delivered twice), and when the loop has exited, the cursor equals
`nextFrameId`: all N admitted units were delivered, ids `0..N-1` in order. -/
theorem c1_in_order_delivery :
    ∀ (nireq : Nat) (tr : List Act) (t : DemoState),
      tr.all benignAct = true →
      run nireq (initState nireq) tr = some t →
      t.delivered = List.range t.nextFrameIdToShow ∧
      (t.finished = none ∨
       (t.nextFrameIdToShow = t.nextFrameId ∧
        t.delivered = List.range t.nextFrameId)) := by
  intro nireq tr t hben hrun
  have hInv : OrderInv nireq t :=
    orderInv_run nireq tr (initState nireq) t (orderInv_init nireq) hben hrun
  refine ⟨hInv.deliv, ?_⟩
  rcases hInv.fin with h1 | h2
  · exact Or.inl h1
  · exact Or.inr ⟨h2, by rw [hInv.deliv, h2]⟩

/-- Witness for `c1_in_order_delivery`: the run `plainExitTrace` (one unit
admitted, completed out of band, delivered, source exhausted, loop exited)
delivers exactly id 0 and exits with the cursor at `nextFrameId = 1`. -/
theorem c1_in_order_delivery_witness :
    plainExitFinal.delivered = List.range plainExitFinal.nextFrameIdToShow ∧
    (plainExitFinal.finished = none ∨
     (plainExitFinal.nextFrameIdToShow = plainExitFinal.nextFrameId ∧
      plainExitFinal.delivered = List.range plainExitFinal.nextFrameId)) :=
  c1_in_order_delivery 1 plainExitTrace plainExitFinal rfl rfl

end OdSsdAsync
